import Mathlib

/-!
The cert-manager-csi-operator: the managed-resource decision and the patch merge

A shallow embedding of `api/cert-manager/config.go` and `api/v1/v1.go`.

Conventions of the embedding:

* a Go `string` is a `String`, an `int64` an `Int` (no arithmetic is done on it,
  it is only printed), a `bool` a `Bool`;
* a Go `map[string]string` is an association list `List (String × String)`;
  a map that may be `nil` (`ObjectMeta.Annotations`) is an `Option` of one;
* a Go `error` result is `Except String Unit`, the string being the message
  given to `errors.New`;
* a Go `panic` is `Except.error` carrying the panic message;
* a function that writes through a pointer returns the updated value; `mutate`,
  which can panic after it was given the pointer, returns the pod spec and the
  panic message, if there is one, side by side.
-/

namespace CertManagerCsi

/-! ## Data model (`config.go`, and the parts of `corev1` / `metav1` it uses) -/

/-- The constant `CERT_MANAGER_CSI_TLD`. -/
def CERT_MANAGER_CSI_TLD : String := "csi.cert-manager.io"

/-- The struct `Config`, field for field. -/
structure Config where
  Namespace : String
  AnnotationKey : String
  IssuerName : String
  IssuerKind : String
  FsGroup : Int
  CaFilename : String
  CertFilename : String
  KeyFilename : String
  MountPath : String
  IsCa : Bool
  Duration : String
  RenewBefore : String
  ReusePrivateKey : Bool
  CommonName : String
  DnsNames : String
  IpSans : String
  UriSans : String
  KeyEncoding : String
  KeyUsages : String
  Pkcs12Enable : Bool
  Pkcs12Filename : String
  Pkcs12Password : String
  deriving DecidableEq, Repr

/-- The Go zero value of `Config`: every string empty, every number 0, every
boolean false. -/
def Config.zero : Config :=
  { Namespace := "", AnnotationKey := "", IssuerName := "", IssuerKind := "",
    FsGroup := 0, CaFilename := "", CertFilename := "", KeyFilename := "",
    MountPath := "", IsCa := false, Duration := "", RenewBefore := "",
    ReusePrivateKey := false, CommonName := "", DnsNames := "", IpSans := "",
    UriSans := "", KeyEncoding := "", KeyUsages := "", Pkcs12Enable := false,
    Pkcs12Filename := "", Pkcs12Password := "" }

/-- The variable `Defaults`. -/
def Defaults : Config :=
  { Config.zero with
    AnnotationKey := "op.csi.cert-manager.io"
    FsGroup := 0
    MountPath := "/var/run/tls" }

deriving instance DecidableEq for Except

/-- A Go `map[string]string`. -/
abbrev StringMap := List (String × String)

/-- The fields of `metav1.ObjectMeta` that the program reads. `Annotations` is
`none` for a nil map. -/
structure ObjectMeta where
  Name : String
  Namespace : String
  Labels : Option StringMap
  Annotations : Option StringMap
  deriving DecidableEq, Repr

/-- The struct `corev1.CSIVolumeSource`. -/
structure CSIVolumeSource where
  Driver : String
  ReadOnly : Option Bool
  FSType : Option String
  VolumeAttributes : StringMap
  NodePublishSecretRef : Option String
  deriving DecidableEq, Repr

/-- The struct `corev1.VolumeSource`: the `CSI` member, and one more member
(`EmptyDir`, by its medium) standing for the sources this program never builds. -/
structure VolumeSource where
  EmptyDir : Option String
  CSI : Option CSIVolumeSource
  deriving DecidableEq, Repr

/-- The struct `corev1.Volume`. -/
structure Volume where
  Name : String
  VolumeSource : VolumeSource
  deriving DecidableEq, Repr

/-- The struct `corev1.VolumeMount`. -/
structure VolumeMount where
  Name : String
  ReadOnly : Bool
  MountPath : String
  SubPath : String
  MountPropagation : Option String
  SubPathExpr : String
  deriving DecidableEq, Repr

/-- The fields of `corev1.Container` that the program and its test use, and
three that they do not (`Command`, `Args`, `WorkingDir`). -/
structure Container where
  Name : String
  Image : String
  Command : List String
  Args : List String
  WorkingDir : String
  VolumeMounts : List VolumeMount
  deriving DecidableEq, Repr

/-- The fields of `corev1.PodSpec` that the program uses, and two that it does
not (`InitContainers`, `ServiceAccountName`). -/
structure PodSpec where
  Volumes : List Volume
  InitContainers : List Container
  Containers : List Container
  ServiceAccountName : String
  deriving DecidableEq, Repr

/-! ## `strings.Contains` and `fmt.Sprintf` -/

/-- The Go library function `strings.Contains s substr`: `substr` occurs in `s`
as a contiguous run. -/
def stringsContains (s substr : String) : Bool :=
  s.data.tails.any fun t => substr.data.isPrefixOf t

/-- The Go call `fmt.Sprintf("%d", n)` on an `int64`. -/
def sprintfD (n : Int) : String := toString n

/-- The Go call `fmt.Sprintf("%t", b)`. -/
def sprintfT (b : Bool) : String := if b then "true" else "false"

/-! ## `Config.Validate` -/

/-- The method `(c *Config) Validate() error`. -/
def Config.Validate (c : Config) : Except String Unit :=
  if c.Namespace = "" ∧ c.AnnotationKey = "" then
    .error "at least Namespace or AnnotationKey must be set"
  else if c.IssuerName = "" then
    .error "IssuerName is required"
  else if c.MountPath = "" then
    .error "MountPath is required"
  else if c.CommonName ≠ "" ∧ ¬ stringsContains c.CommonName "$\x7b" then
    .error "CommonName must be a templated string"
  else
    .ok ()

/-! ## `Config.IsManaged` -/

/-- The loop over the keys `k` of `m.Annotations` that sets `managed = true`
when `k == c.AnnotationKey`, started from the given value of `managed`. -/
def IsManaged.scan (key : String) (annotations : StringMap) (managed : Bool) : Bool :=
  annotations.foldl (fun managed kv => if kv.1 = key then true else managed) managed

/-- The method `(c *Config) IsManaged(m *metav1.ObjectMeta) (managed bool)`. -/
def Config.IsManaged (c : Config) (m : ObjectMeta) : Bool :=
  let managed := if m.Namespace = c.Namespace then true else false
  if c.AnnotationKey ≠ "" then
    let managed := false
    match m.Annotations with
    | some annotations => IsManaged.scan c.AnnotationKey annotations managed
    | none => managed
  else
    managed

/-! ## `Config.GetAttributes` -/

/-- The closure `key` of `GetAttributes`: `CERT_MANAGER_CSI_TLD + "/" + s`. -/
def GetAttributes.key (s : String) : String := CERT_MANAGER_CSI_TLD ++ "/" ++ s

/-- The map literal that `GetAttributes` starts from, entry for entry. -/
def GetAttributes.literal (c : Config) : StringMap :=
  [ -- Issuer
    (GetAttributes.key "issuer-name", c.IssuerName),
    (GetAttributes.key "issuer-kind", c.IssuerKind),
    -- Files
    (GetAttributes.key "fs-group", sprintfD c.FsGroup),
    (GetAttributes.key "ca-file", c.CaFilename),
    (GetAttributes.key "certificate-file", c.CertFilename),
    (GetAttributes.key "privatekey-file", c.KeyFilename),
    -- Details
    (GetAttributes.key "is-ca", sprintfT c.IsCa),
    (GetAttributes.key "duration", c.Duration),
    (GetAttributes.key "renew-before", c.RenewBefore),
    (GetAttributes.key "reuse-private-key", sprintfT c.ReusePrivateKey),
    (GetAttributes.key "common-name", c.CommonName),
    (GetAttributes.key "dns-names", c.DnsNames),
    (GetAttributes.key "ip-sans", c.IpSans),
    (GetAttributes.key "uri-sans", c.UriSans),
    (GetAttributes.key "key-encoding", c.KeyEncoding),
    (GetAttributes.key "key-usages", c.KeyUsages),
    (GetAttributes.key "pkcs12-enable", sprintfT c.Pkcs12Enable),
    (GetAttributes.key "pkcs12-filename", c.Pkcs12Filename),
    (GetAttributes.key "pkcs12-password", c.Pkcs12Password) ]

/-- The Go builtin `delete(m, k)` on a map. -/
def mapDelete (m : StringMap) (k : String) : StringMap :=
  m.filter fun kv => kv.1 ≠ k

/-- The condition of the pruning loop on an entry `k, v`:
`v == "" || (k == key("fs-group") && v == "0")`. -/
def GetAttributes.pruned (kv : String × String) : Prop :=
  kv.2 = "" ∨ (kv.1 = GetAttributes.key "fs-group" ∧ kv.2 = "0")

instance GetAttributes.decidablePruned (kv : String × String) :
    Decidable (GetAttributes.pruned kv) := by
  unfold GetAttributes.pruned; infer_instance

/-- The pruning loop of `GetAttributes`: every entry `k, v` of the map is
visited, and deleted from the map when it meets the condition. -/
def GetAttributes.prune (attributes : StringMap) : StringMap :=
  attributes.foldl
    (fun attributes kv =>
      if GetAttributes.pruned kv then mapDelete attributes kv.1 else attributes)
    attributes

/-- The method `(c *Config) GetAttributes() map[string]string`; the panic is
`Except.error` with the panic message. -/
def Config.GetAttributes (c : Config) : Except String StringMap :=
  match c.Validate with
  | .error _ => .error "Validation failed. This should never happen by this point."
  | .ok _ => .ok (GetAttributes.prune (GetAttributes.literal c))

/-! ## `Config.GetVolumeAndMount` -/

/-- The function `ptrBool`. -/
def ptrBool (b : Bool) : Option Bool := some b

/-- The method `(c *Config) GetVolumeAndMount(attributes)`. The fields that the
composite literals leave out have their zero value. -/
def Config.GetVolumeAndMount (c : Config) (attributes : StringMap) : Volume × VolumeMount :=
  let volume : Volume :=
    { Name := "cert-manager-tls"
      VolumeSource :=
        { EmptyDir := none
          CSI := some
            { Driver := CERT_MANAGER_CSI_TLD
              ReadOnly := ptrBool true
              FSType := none
              VolumeAttributes := attributes
              NodePublishSecretRef := none } } }
  let mount : VolumeMount :=
    { Name := "cert-manager-tls"
      MountPath := c.MountPath
      ReadOnly := true
      SubPath := ""
      MountPropagation := none
      SubPathExpr := "" }
  (volume, mount)

/-! ## The merge engine (`v1.go`) -/

/-- The inner loop of `deepMergeVolumes`: the first entry of `dst` with the name
of `new` is overwritten by `new` and the scan stops (`continue loop`); `none`
when the scan reaches the end of `dst` without a match. -/
def deepMergeVolumes.scan (new : Volume) : List Volume → Option (List Volume)
  | [] => none
  | current :: rest =>
    if current.Name = new.Name then some (new :: rest)
    else (deepMergeVolumes.scan new rest).map fun rest => current :: rest

/-- The function `deepMergeVolumes(dst, elements...)`. -/
def deepMergeVolumes (dst : List Volume) (elements : List Volume) : List Volume :=
  elements.foldl
    (fun dst new =>
      match deepMergeVolumes.scan new dst with
      | some dst => dst
      | none => dst ++ [new])
    dst

/-- The inner loop of `deepMergeMounts`, as `deepMergeVolumes.scan`. -/
def deepMergeMounts.scan (new : VolumeMount) : List VolumeMount → Option (List VolumeMount)
  | [] => none
  | current :: rest =>
    if current.Name = new.Name then some (new :: rest)
    else (deepMergeMounts.scan new rest).map fun rest => current :: rest

/-- The function `deepMergeMounts(dst, elements...)`. -/
def deepMergeMounts (dst : List VolumeMount) (elements : List VolumeMount) : List VolumeMount :=
  elements.foldl
    (fun dst new =>
      match deepMergeMounts.scan new dst with
      | some dst => dst
      | none => dst ++ [new])
    dst

/-! ## The attribute table, in the specification's words -/

/-- The nineteen field slugs of the attribute keys, each with its source value:
a string field as it is, `FsGroup` as a decimal string, a boolean as `true` or
`false`. This table follows the specification; `GetAttributes.literal` is the
code's. -/
def attributeSources (c : Config) : List (String × String) :=
  [ ("issuer-name", c.IssuerName),
    ("issuer-kind", c.IssuerKind),
    ("fs-group", sprintfD c.FsGroup),
    ("ca-file", c.CaFilename),
    ("certificate-file", c.CertFilename),
    ("privatekey-file", c.KeyFilename),
    ("is-ca", if c.IsCa then "true" else "false"),
    ("duration", c.Duration),
    ("renew-before", c.RenewBefore),
    ("reuse-private-key", if c.ReusePrivateKey then "true" else "false"),
    ("common-name", c.CommonName),
    ("dns-names", c.DnsNames),
    ("ip-sans", c.IpSans),
    ("uri-sans", c.UriSans),
    ("key-encoding", c.KeyEncoding),
    ("key-usages", c.KeyUsages),
    ("pkcs12-enable", if c.Pkcs12Enable then "true" else "false"),
    ("pkcs12-filename", c.Pkcs12Filename),
    ("pkcs12-password", c.Pkcs12Password) ]

/-! ## The merge rule, in the specification's words -/

/-- The replace-first-or-append rule between a sequence `dst`, one new entry
and a result, entries being named by `name`: if some entry of `dst` has the
name of `new`, the result has the length of `dst`, is `new` at the first index
whose entry has that name, and is `dst` at every other index; otherwise the
result is `dst` with `new` appended at the end. This predicate follows the
specification; `deepMergeVolumes` and `deepMergeMounts` are the code's. -/
def ReplaceFirstOrAppend {α : Type} (name : α → String) (dst : List α) (new : α)
    (result : List α) : Prop :=
  ((∃ e ∈ dst, name e = name new) →
    ∃ i, i < dst.length ∧ (∃ e, dst[i]? = some e ∧ name e = name new) ∧
      (∀ j, j < i → ∀ e, dst[j]? = some e → name e ≠ name new) ∧
      result.length = dst.length ∧ result[i]? = some new ∧
      ∀ j, j ≠ i → result[j]? = dst[j]?) ∧
  ((¬ ∃ e ∈ dst, name e = name new) → result = dst ++ [new])

/-! ## The mutation orchestrator (`v1.go`) -/

/-- The state in which a call of `mutate` leaves the caller: the pod spec it
was given a pointer to, and the panic that ended the call, if one did. -/
structure MutateResult where
  podSpec : PodSpec
  panic : Option String
  deriving DecidableEq, Repr

/-- The function `mutate(logr, config, objectMeta, podSpec)`; the logger is left
out. -/
def mutate (config : Config) (objectMeta : ObjectMeta) (podSpec : PodSpec) : MutateResult :=
  if ¬ config.IsManaged objectMeta then
    { podSpec := podSpec, panic := none }
  else
    match config.GetAttributes with
    | .error msg => { podSpec := podSpec, panic := some msg }
    | .ok attributes =>
      let (volume, mount) := config.GetVolumeAndMount attributes
      let podSpec := { podSpec with Volumes := deepMergeVolumes podSpec.Volumes [volume] }
      let podSpec := { podSpec with
        Containers := podSpec.Containers.map fun container =>
          { container with VolumeMounts := deepMergeMounts container.VolumeMounts [mount] } }
      { podSpec := podSpec, panic := none }

/-! ## The end-to-end scenario of the specification -/

/-- The configuration of the scenario: `Namespace` `prod`, `IssuerName`
`ca-issuer`, `MountPath` `/var/run/tls`, every other field empty or zero. -/
def scenarioConfig : Config :=
  { Config.zero with Namespace := "prod", IssuerName := "ca-issuer", MountPath := "/var/run/tls" }

/-- The metadata of the scenario: a workload of namespace `prod`, labelled as
the deployment of `deployment_webhook_test.go`, without annotations. -/
def scenarioMeta : ObjectMeta :=
  { Name := "deployment", Namespace := "prod", Labels := some [("app", "unittest")],
    Annotations := none }

/-- The pod spec of the scenario: no volumes, and the one container of
`deployment_webhook_test.go`, without mounts. -/
def scenarioPodSpec : PodSpec :=
  { Volumes := []
    InitContainers := []
    Containers :=
      [ { Name := "main", Image := "example.com/unittest:latest", Command := [], Args := [],
          WorkingDir := "", VolumeMounts := [] } ]
    ServiceAccountName := "" }

/-- A pod spec that is not fresh: it has a volume of its own and a stale volume
named `cert-manager-tls`, an init container, and two containers, the first
with a mount of its own and a stale mount named `cert-manager-tls`. -/
def stalePodSpec : PodSpec :=
  { Volumes :=
      [ { Name := "data", VolumeSource := { EmptyDir := some "", CSI := none } },
        { Name := "cert-manager-tls",
          VolumeSource := { EmptyDir := some "Memory", CSI := none } } ]
    InitContainers :=
      [ { Name := "init", Image := "example.com/init:latest", Command := ["setup"], Args := [],
          WorkingDir := "/", VolumeMounts := [] } ]
    Containers :=
      [ { Name := "main", Image := "example.com/unittest:latest", Command := [], Args := ["-v"],
          WorkingDir := "",
          VolumeMounts :=
            [ { Name := "data", ReadOnly := false, MountPath := "/data", SubPath := "",
                MountPropagation := none, SubPathExpr := "" },
              { Name := "cert-manager-tls", ReadOnly := false, MountPath := "/old",
                SubPath := "", MountPropagation := none, SubPathExpr := "" } ] },
        { Name := "sidecar", Image := "example.com/sidecar:latest", Command := [], Args := [],
          WorkingDir := "", VolumeMounts := [] } ]
    ServiceAccountName := "default" }

end CertManagerCsi

namespace CertManagerCsi

/-! ## The managed-resource predicate -/

/-- The annotation loop ends with `managed` set iff it started so or the key is
among the map's keys. -/
theorem IsManaged.scan_eq_true (key : String) (annotations : StringMap) (managed : Bool) :
    IsManaged.scan key annotations managed = true ↔
      managed = true ∨ ∃ v, (key, v) ∈ annotations := by
  induction annotations generalizing managed with
  | nil => simp [IsManaged.scan]
  | cons kv rest ih =>
    obtain ⟨k, v⟩ := kv
    have step : IsManaged.scan key ((k, v) :: rest) managed
        = IsManaged.scan key rest (if k = key then true else managed) := rfl
    rw [step, ih]
    by_cases hk : k = key
    · subst hk
      simp only [if_true, true_or, true_iff]
      exact Or.inr ⟨v, List.mem_cons_self _ _⟩
    · have hne : ∀ w, (key, w) ≠ (k, v) := fun w h => hk (congrArg Prod.fst h).symm
      simp [hk, hne]

/-- Claim C1. `IsManaged` is this function of the configuration and the
metadata: with an empty `AnnotationKey` it is true iff the two namespaces are
equal; with a non-empty `AnnotationKey` it is true iff the metadata has
annotations and the key is among them (with any value), whatever the two
namespaces are. -/
theorem IsManaged_spec (c : Config) (m : ObjectMeta) :
    (c.AnnotationKey = "" → (c.IsManaged m = true ↔ m.Namespace = c.Namespace)) ∧
    (c.AnnotationKey ≠ "" →
      (c.IsManaged m = true ↔
        ∃ annotations, m.Annotations = some annotations ∧
          ∃ v, (c.AnnotationKey, v) ∈ annotations)) := by
  refine ⟨fun hk => ?_, fun hk => ?_⟩
  · simp [Config.IsManaged, hk]
  · cases hm : m.Annotations with
    | none => simp [Config.IsManaged, hk, hm]
    | some annotations =>
      simp [Config.IsManaged, hk, hm, IsManaged.scan_eq_true]

/-- Claim C1, at concrete inputs: the annotation key `foo` is set; a workload
annotated `foo: bar` in another namespace is managed, a workload with empty or
nil annotations in the configured namespace is not; with no annotation key the
namespaces decide. -/
theorem IsManaged_spec_witness :
    ({ Defaults with Namespace := "ns1", AnnotationKey := "foo" } : Config).IsManaged
        { Name := "w", Namespace := "ns2", Labels := none,
          Annotations := some [("foo", "bar")] } = true ∧
    ({ Defaults with Namespace := "ns1", AnnotationKey := "foo" } : Config).IsManaged
        { Name := "w", Namespace := "ns1", Labels := none, Annotations := some [] } = false ∧
    ({ Defaults with Namespace := "ns1", AnnotationKey := "foo" } : Config).IsManaged
        { Name := "w", Namespace := "ns1", Labels := none, Annotations := none } = false ∧
    ({ Defaults with Namespace := "ns1", AnnotationKey := "" } : Config).IsManaged
        { Name := "w", Namespace := "ns1", Labels := none, Annotations := none } = true ∧
    ({ Defaults with Namespace := "ns1", AnnotationKey := "" } : Config).IsManaged
        { Name := "w", Namespace := "ns2", Labels := none,
          Annotations := some [("foo", "bar")] } = false := by
  have h := IsManaged_spec { Defaults with Namespace := "ns1", AnnotationKey := "foo" }
    { Name := "w", Namespace := "ns2", Labels := none, Annotations := some [("foo", "bar")] }
  refine ⟨(h.2 (by decide)).2 ⟨_, rfl, "bar", by simp⟩, ?_, ?_, ?_, ?_⟩ <;> decide

/-- With no annotation key, the namespaces decide: the workloads of the
configured namespace, and only they, are managed. -/
theorem IsManaged_of_annotationKey_empty (c : Config) (m : ObjectMeta)
    (hk : c.AnnotationKey = "") : c.IsManaged m = true ↔ m.Namespace = c.Namespace := by
  simp [Config.IsManaged, hk]

/-- Claim C2, evaluated: the configuration is `Defaults` with `Namespace` set to
`prod` (so `AnnotationKey` is the default `op.csi.cert-manager.io`); a workload
created in namespace `prod` without annotations is not managed. -/
theorem IsManaged_namespace_set_same_namespace_unmanaged :
    ({ Defaults with Namespace := "prod" } : Config).Namespace ≠ "" ∧
    (({ Name := "web", Namespace := "prod", Labels := none, Annotations := none } :
        ObjectMeta).Namespace = ({ Defaults with Namespace := "prod" } : Config).Namespace) ∧
    ({ Defaults with Namespace := "prod" } : Config).IsManaged
      { Name := "web", Namespace := "prod", Labels := none, Annotations := none } = false := by
  decide

/-- Claim C3, evaluated: the configuration is `Defaults` with `Namespace` set to
`prod`; a workload created in namespace `dev` that carries the annotation
`op.csi.cert-manager.io` is managed. -/
theorem IsManaged_namespace_set_other_namespace_managed :
    ({ Defaults with Namespace := "prod" } : Config).Namespace ≠ "" ∧
    (({ Name := "web", Namespace := "dev", Labels := none,
        Annotations := some [("op.csi.cert-manager.io", "")] } : ObjectMeta).Namespace
      ≠ ({ Defaults with Namespace := "prod" } : Config).Namespace) ∧
    ({ Defaults with Namespace := "prod" } : Config).IsManaged
      { Name := "web", Namespace := "dev", Labels := none,
        Annotations := some [("op.csi.cert-manager.io", "")] } = true := by
  decide

/-! ## Validation -/

/-- The model of `strings.Contains` is true iff the string splits around the
substring. -/
theorem stringsContains_iff (s substr : String) :
    stringsContains s substr = true ↔ ∃ pre post : String, s = pre ++ substr ++ post := by
  unfold stringsContains
  rw [List.any_eq_true]
  constructor
  · rintro ⟨t, ht, hpre⟩
    rw [List.mem_tails] at ht
    rw [List.isPrefixOf_iff_prefix] at hpre
    obtain ⟨post, hpost⟩ := hpre
    obtain ⟨pre, hpre⟩ := ht
    refine ⟨⟨pre⟩, ⟨post⟩, ?_⟩
    apply String.ext
    simp [String.data_append, ← hpre, ← hpost]
  · rintro ⟨pre, post, h⟩
    refine ⟨substr.data ++ post.data, ?_, ?_⟩
    · rw [List.mem_tails]
      exact ⟨pre.data, by simp [h, String.data_append]⟩
    · rw [List.isPrefixOf_iff_prefix]
      exact ⟨post.data, rfl⟩

/-- Claim C4. `Validate` succeeds iff a scope is set (`Namespace` or
`AnnotationKey` non-empty), `IssuerName` and `MountPath` are non-empty, and
`CommonName` is empty or contains the substring `${`; when it fails the error
is that of the first failing check, in the order scope, issuer name, mount
path, common name. A common name `static` is rejected whatever the other
fields are, and the common name `${pod.name}` never fails the common-name
check. -/
theorem Validate_spec (c : Config) :
    (c.Validate = .ok () ↔
      (c.Namespace ≠ "" ∨ c.AnnotationKey ≠ "") ∧ c.IssuerName ≠ "" ∧ c.MountPath ≠ "" ∧
        (c.CommonName = "" ∨ ∃ pre post : String, c.CommonName = pre ++ "$\x7b" ++ post)) ∧
    (c.Validate = .error "at least Namespace or AnnotationKey must be set" ↔
      c.Namespace = "" ∧ c.AnnotationKey = "") ∧
    (c.Validate = .error "IssuerName is required" ↔
      (c.Namespace ≠ "" ∨ c.AnnotationKey ≠ "") ∧ c.IssuerName = "") ∧
    (c.Validate = .error "MountPath is required" ↔
      (c.Namespace ≠ "" ∨ c.AnnotationKey ≠ "") ∧ c.IssuerName ≠ "" ∧ c.MountPath = "") ∧
    (c.Validate = .error "CommonName must be a templated string" ↔
      (c.Namespace ≠ "" ∨ c.AnnotationKey ≠ "") ∧ c.IssuerName ≠ "" ∧ c.MountPath ≠ "" ∧
        c.CommonName ≠ "" ∧ ¬ ∃ pre post : String, c.CommonName = pre ++ "$\x7b" ++ post) ∧
    (c.CommonName = "static" → ∃ msg, c.Validate = .error msg) ∧
    (c.CommonName = "$\x7bpod.name\x7d" →
      c.Validate ≠ .error "CommonName must be a templated string") := by
  have hc := stringsContains_iff c.CommonName "$\x7b"
  have hstatic : stringsContains "static" "$\x7b" = false := by decide
  have hpod : stringsContains "$\x7bpod.name\x7d" "$\x7b" = true := by decide
  by_cases h1 : c.Namespace = "" ∧ c.AnnotationKey = ""
  · have hv : c.Validate = .error "at least Namespace or AnnotationKey must be set" := by
      simp [Config.Validate, h1]
    rw [hv]
    refine ⟨?_, ?_, ?_, ?_, ?_, ?_, ?_⟩ <;> simp [h1]
  · have h1' : c.Namespace ≠ "" ∨ c.AnnotationKey ≠ "" := by tauto
    by_cases h2 : c.IssuerName = ""
    · have hv : c.Validate = .error "IssuerName is required" := by
        simp [Config.Validate, h1, h2]
      rw [hv]
      refine ⟨?_, ?_, ?_, ?_, ?_, ?_, ?_⟩ <;> first | (simp [h2]; done) | (simp [h2]; tauto)
    · by_cases h3 : c.MountPath = ""
      · have hv : c.Validate = .error "MountPath is required" := by
          simp [Config.Validate, h1, h2, h3]
        rw [hv]
        refine ⟨?_, ?_, ?_, ?_, ?_, ?_, ?_⟩ <;>
          first | (simp [h2, h3]; done) | (simp [h2, h3]; tauto)
      · by_cases h4 : c.CommonName = ""
        · have hv : c.Validate = .ok () := by
            simp [Config.Validate, h1, h2, h3, h4]
          rw [hv]
          refine ⟨?_, ?_, ?_, ?_, ?_, ?_, ?_⟩ <;>
            first | (simp [h2, h3, h4]; done) | (simp [h2, h3, h4]; tauto)
        · by_cases h5 : stringsContains c.CommonName "$\x7b" = true
          · have h5' := hc.1 h5
            have hv : c.Validate = .ok () := by
              simp [Config.Validate, h1, h2, h3, h4, h5]
            rw [hv]
            refine ⟨?_, ?_, ?_, ?_, ?_, ?_, ?_⟩
            · exact ⟨fun _ => ⟨h1', h2, h3, Or.inr h5'⟩, fun _ => rfl⟩
            · first | (simp; done) | (simp; tauto)
            · first | (simp; done) | (simp; tauto)
            · first | (simp; done) | (simp; tauto)
            · first | (simp; done) | (simp; tauto)
            · intro hs
              rw [hs, hstatic] at h5
              exact absurd h5 (by decide)
            · simp
          · have h5' : ¬ ∃ pre post : String, c.CommonName = pre ++ "$\x7b" ++ post :=
              fun h => h5 (hc.2 h)
            have hv : c.Validate = .error "CommonName must be a templated string" := by
              simp [Config.Validate, h1, h2, h3, h4, h5]
            rw [hv]
            refine ⟨?_, ?_, ?_, ?_, ?_, ?_, ?_⟩
            · constructor
              · intro h; cases h
              · rintro ⟨_, _, _, h | h⟩
                · exact absurd h h4
                · exact absurd h h5'
            · first | (simp; done) | (simp; tauto)
            · first | (simp; done) | (simp; tauto)
            · first | (simp; done) | (simp; tauto)
            · exact ⟨fun _ => ⟨h1', h2, h3, h4, h5'⟩, fun _ => rfl⟩
            · intro _
              exact ⟨_, rfl⟩
            · intro hs
              rw [hs, hpod] at h5
              exact absurd rfl h5

/-! ## Decimal printing -/

theorem toDigitsCore_length_ge (fuel n : Nat) (ds : List Char) :
    ds.length ≤ (Nat.toDigitsCore 10 fuel n ds).length := by
  induction fuel generalizing n ds with
  | zero => simp [Nat.toDigitsCore]
  | succ fuel ih =>
    simp only [Nat.toDigitsCore]
    split
    · simp
    · exact Nat.le_trans (by simp) (ih _ _)

theorem toDigitsCore_succ_length_gt (fuel n : Nat) (ds : List Char) :
    ds.length < (Nat.toDigitsCore 10 (fuel + 1) n ds).length := by
  simp only [Nat.toDigitsCore]
  split
  · simp
  · exact Nat.lt_of_lt_of_le (by simp) (toDigitsCore_length_ge _ _ _)

theorem toDigits_eq_zero_iff (n : Nat) : Nat.toDigits 10 n = ['0'] ↔ n = 0 := by
  constructor
  · intro h
    by_contra hn
    by_cases hlt : n < 10
    · have : n = 1 ∨ n = 2 ∨ n = 3 ∨ n = 4 ∨ n = 5 ∨ n = 6 ∨ n = 7 ∨ n = 8 ∨ n = 9 := by omega
      rcases this with h' | h' | h' | h' | h' | h' | h' | h' | h' <;> subst h' <;>
        exact absurd h (by decide)
    · obtain ⟨m, rfl⟩ : ∃ m, n = m + 1 := ⟨n - 1, by omega⟩
      have hdiv : (m + 1) / 10 ≠ 0 := by omega
      have hlen := congrArg List.length h
      unfold Nat.toDigits at hlen
      rw [Nat.toDigitsCore] at hlen
      simp only [hdiv, if_false] at hlen
      have := toDigitsCore_succ_length_gt m ((m + 1) / 10) [Nat.digitChar ((m + 1) % 10)]
      simp at hlen this
      omega
  · rintro rfl; rfl

theorem toDigits_ne_nil (n : Nat) : Nat.toDigits 10 n ≠ [] := by
  intro h
  have := toDigitsCore_succ_length_gt n n []
  unfold Nat.toDigits at h
  rw [h] at this
  simp at this

/-- The decimal string of an integer is `0` only for the integer 0. -/
theorem sprintfD_eq_zero_iff (n : Int) : sprintfD n = "0" ↔ n = 0 := by
  unfold sprintfD
  cases n with
  | ofNat m =>
    show Nat.repr m = "0" ↔ _
    unfold Nat.repr
    rw [Int.ofNat_eq_coe, Int.natCast_eq_zero, ← toDigits_eq_zero_iff]
    constructor
    · intro h; exact congrArg String.data h
    · intro h; rw [h]; rfl
  | negSucc m =>
    constructor
    · intro h
      have h' : ("-" ++ Nat.repr (m + 1)) = "0" := h
      have := congrArg String.data h'
      rw [String.data_append] at this
      simp at this
    · intro h; cases h

/-- The decimal string of an integer is never empty. -/
theorem sprintfD_ne_empty (n : Int) : sprintfD n ≠ "" := by
  unfold sprintfD
  cases n with
  | ofNat m =>
    show Nat.repr m ≠ ""
    unfold Nat.repr
    intro h
    exact toDigits_ne_nil m (congrArg String.data h)
  | negSucc m =>
    intro h
    have h' : ("-" ++ Nat.repr (m + 1)) = "" := h
    have := congrArg String.data h'
    rw [String.data_append] at this
    simp at this

/-! ## The pruning loop is a filter -/

/-- Running the loop body over the entries `visited` deletes from `m` the
entries whose key is the key of a visited entry that meets the condition. -/
theorem GetAttributes.prune_loop (visited m : StringMap) :
    visited.foldl
        (fun attributes kv =>
          if GetAttributes.pruned kv then mapDelete attributes kv.1 else attributes) m
      = m.filter fun kv => decide (∀ kv' ∈ visited, GetAttributes.pruned kv' → kv'.1 ≠ kv.1) := by
  induction visited generalizing m with
  | nil => simp
  | cons a rest ih =>
    rw [List.foldl_cons, ih]
    by_cases ha' : GetAttributes.pruned a
    · rw [if_pos ha', mapDelete, List.filter_filter]
      apply List.filter_congr
      intro kv _
      simp only [List.mem_cons, forall_eq_or_imp, ha', true_implies, ne_eq,
        Bool.decide_and, Bool.and_comm, Bool.and_eq_true, decide_eq_true_eq, eq_iff_iff]
      have e : (¬ kv.1 = a.1) ↔ (¬ a.1 = kv.1) :=
        ⟨fun h h' => h h'.symm, fun h h' => h h'.symm⟩
      rw [decide_eq_decide.2 e]
    · rw [if_neg ha']
      apply List.filter_congr
      intro kv _
      simp [ha']

/-- On a map (keys pairwise distinct) the pruning loop keeps exactly the entries
that do not meet the deletion condition. -/
theorem GetAttributes.prune_eq_filter (m : StringMap) (hm : (m.map Prod.fst).Nodup) :
    GetAttributes.prune m = m.filter fun kv => decide (¬ GetAttributes.pruned kv) := by
  unfold GetAttributes.prune
  rw [GetAttributes.prune_loop]
  apply List.filter_congr
  intro kv hkv
  simp only [ne_eq, decide_eq_decide]
  constructor
  · intro h hp; exact h kv hkv hp rfl
  · intro h kv' hkv' hp heq
    have : kv' = kv := List.inj_on_of_nodup_map hm hkv' hkv heq
    exact h (this ▸ hp)

/-! ## The attribute projection -/

/-- The closure `key` is injective. -/
theorem GetAttributes.key_injective {s t : String}
    (h : GetAttributes.key s = GetAttributes.key t) : s = t := by
  have h' := congrArg String.data h
  simp only [GetAttributes.key, String.data_append] at h'
  exact String.ext (List.append_cancel_left h')

/-- The closure `key` puts the domain literal and a slash before the slug. -/
theorem GetAttributes.key_eq (s : String) :
    GetAttributes.key s = "csi.cert-manager.io/" ++ s := by
  apply String.ext
  simp [GetAttributes.key, CERT_MANAGER_CSI_TLD, String.data_append]

/-- The code's map literal is the specification's table under `key`. -/
theorem GetAttributes.literal_eq (c : Config) :
    GetAttributes.literal c
      = (attributeSources c).map fun sv => (GetAttributes.key sv.1, sv.2) := rfl

/-- The slugs of the table are pairwise distinct. -/
theorem attributeSources_nodup (c : Config) : ((attributeSources c).map Prod.fst).Nodup := by
  simp only [attributeSources, List.map_cons, List.map_nil]
  decide

/-- The keys of the code's map literal are pairwise distinct: it is a map. -/
theorem GetAttributes.literal_nodup (c : Config) :
    ((GetAttributes.literal c).map Prod.fst).Nodup := by
  rw [GetAttributes.literal_eq, List.map_map]
  have : (Prod.fst ∘ fun sv : String × String => (GetAttributes.key sv.1, sv.2))
      = GetAttributes.key ∘ Prod.fst := rfl
  rw [this, ← List.map_map]
  exact (attributeSources_nodup c).map fun _ _ h => GetAttributes.key_injective h

/-- On a configuration that `Validate` accepts, `GetAttributes` returns the
entries of the literal that do not meet the pruning condition. -/
theorem GetAttributes_ok (c : Config) (hv : c.Validate = .ok ()) :
    c.GetAttributes
      = .ok ((GetAttributes.literal c).filter fun kv => decide (¬ GetAttributes.pruned kv)) := by
  unfold Config.GetAttributes
  rw [hv, GetAttributes.prune_eq_filter _ (GetAttributes.literal_nodup c)]

/-- On a configuration that `Validate` rejects, `GetAttributes` panics. -/
theorem GetAttributes_panic (c : Config) (e : String) (hv : c.Validate = .error e) :
    c.GetAttributes = .error "Validation failed. This should never happen by this point." := by
  unfold Config.GetAttributes
  rw [hv]

/-- Claim C5, refuted as stated: on the zero configuration `Validate` returns
the scope error, and `GetAttributes` fails with another message, that of its
panic; the error of `Validate` is not what it fails with. -/
theorem GetAttributes_discards_Validate_error :
    Config.zero.Validate = .error "at least Namespace or AnnotationKey must be set" ∧
    Config.zero.GetAttributes
      = .error "Validation failed. This should never happen by this point." ∧
    Config.zero.GetAttributes ≠ .error "at least Namespace or AnnotationKey must be set" := by
  decide

/-- Claim C5, amended. `GetAttributes` first calls `Validate`: it fails iff
`Validate` fails; it then panics with the fixed message `Validation failed.
This should never happen by this point.`, whatever the error of `Validate`
was, and produces no map; when `Validate` succeeds it returns a map. -/
theorem GetAttributes_fails_iff_Validate_fails (c : Config) :
    ((∃ e, c.GetAttributes = .error e) ↔ ∃ e, c.Validate = .error e) ∧
    (∀ e, c.Validate = .error e →
      c.GetAttributes = .error "Validation failed. This should never happen by this point.") ∧
    (c.Validate = .ok () → ∃ m, c.GetAttributes = .ok m) := by
  cases hv : c.Validate with
  | error e =>
    have hp := GetAttributes_panic c e hv
    exact ⟨⟨fun _ => ⟨e, rfl⟩, fun _ => ⟨_, hp⟩⟩, fun _ _ => hp, fun h => (by cases h)⟩
  | ok u =>
    cases u
    have ho := GetAttributes_ok c hv
    refine ⟨⟨?_, ?_⟩, fun e h => (by cases h), fun _ => ⟨_, ho⟩⟩
    · rintro ⟨e, he⟩
      rw [ho] at he
      cases he
    · rintro ⟨e, he⟩
      cases he

/-- Claim C5, amended, at concrete inputs: the zero configuration is rejected
and `GetAttributes` panics on it; `Defaults` with an issuer name is accepted and
`GetAttributes` returns a map for it. -/
theorem GetAttributes_fails_iff_Validate_fails_witness :
    (Config.zero.GetAttributes
      = .error "Validation failed. This should never happen by this point.") ∧
    ∃ m, ({ Defaults with IssuerName := "ca-issuer" } : Config).GetAttributes = .ok m :=
  ⟨(GetAttributes_fails_iff_Validate_fails Config.zero).2.1
     "at least Namespace or AnnotationKey must be set" (by decide),
   (GetAttributes_fails_iff_Validate_fails { Defaults with IssuerName := "ca-issuer" }).2.2
     (by decide)⟩

/-- An entry is in the map that `GetAttributes` returns iff it is an entry of the
table, under `key`, that does not meet the pruning condition. -/
theorem mem_GetAttributes (c : Config) (k v : String) :
    (k, v) ∈ (GetAttributes.literal c).filter (fun kv => decide (¬ GetAttributes.pruned kv)) ↔
      (∃ slug, (slug, v) ∈ attributeSources c ∧ k = GetAttributes.key slug) ∧
        v ≠ "" ∧ ¬ (k = GetAttributes.key "fs-group" ∧ v = "0") := by
  rw [List.mem_filter, GetAttributes.literal_eq, List.mem_map]
  simp only [GetAttributes.pruned, not_or, decide_eq_true_eq, Prod.mk.injEq, Prod.exists]
  constructor
  · rintro ⟨⟨slug, src, hmem, rfl, rfl⟩, h1, h2⟩
    exact ⟨⟨slug, hmem, rfl⟩, h1, h2⟩
  · rintro ⟨⟨slug, hmem, rfl⟩, h1, h2⟩
    exact ⟨⟨slug, v, hmem, rfl, rfl⟩, h1, h2⟩

/-- Claim C6. For every configuration that `Validate` accepts, `GetAttributes`
returns a map (keys pairwise distinct) in which: every key is
`csi.cert-manager.io/` followed by one of the nineteen slugs, and maps to the
source value of that slug, which is not the empty string; the key of a slug
other than `fs-group` is present iff the source value is non-empty; the
`fs-group` key is present iff `FsGroup` is not 0. -/
theorem GetAttributes_spec (c : Config) (hv : c.Validate = .ok ()) :
    ∃ m, c.GetAttributes = .ok m ∧
      (m.map Prod.fst).Nodup ∧
      (∀ k v, (k, v) ∈ m →
        v ≠ "" ∧ ∃ slug, (slug, v) ∈ attributeSources c ∧ k = "csi.cert-manager.io/" ++ slug) ∧
      (∀ slug src, (slug, src) ∈ attributeSources c → slug ≠ "fs-group" →
        ((∃ v, ("csi.cert-manager.io/" ++ slug, v) ∈ m) ↔ src ≠ "")) ∧
      ((∃ v, ("csi.cert-manager.io/" ++ "fs-group", v) ∈ m) ↔ c.FsGroup ≠ 0) ∧
      (∀ slug src, (slug, src) ∈ attributeSources c →
        ∀ v, ("csi.cert-manager.io/" ++ slug, v) ∈ m → v = src) := by
  refine ⟨_, GetAttributes_ok c hv, ?_, ?_, ?_, ?_, ?_⟩
  · exact ((GetAttributes.literal_nodup c).sublist
      ((List.filter_sublist _).map Prod.fst))
  · intro k v hmem
    obtain ⟨⟨slug, hs, rfl⟩, hne, _⟩ := (mem_GetAttributes c k v).1 hmem
    exact ⟨hne, slug, hs, GetAttributes.key_eq slug⟩
  · intro slug src hs hslug
    simp only [← GetAttributes.key_eq, mem_GetAttributes]
    constructor
    · rintro ⟨v, ⟨slug', hs', hk⟩, hne, _⟩
      have hslug' := GetAttributes.key_injective hk
      subst hslug'
      have := List.inj_on_of_nodup_map (attributeSources_nodup c) hs hs' rfl
      simp only [Prod.mk.injEq, true_and] at this
      rw [this]; exact hne
    · intro hne
      exact ⟨src, ⟨slug, hs, rfl⟩, hne, fun h => hslug (GetAttributes.key_injective h.1)⟩
  · have hfs : ("fs-group", sprintfD c.FsGroup) ∈ attributeSources c := by
      simp [attributeSources]
    simp only [← GetAttributes.key_eq, mem_GetAttributes]
    constructor
    · rintro ⟨v, ⟨slug', hs', hk⟩, _, h0⟩ hz
      have hslug' := GetAttributes.key_injective hk
      subst hslug'
      have := List.inj_on_of_nodup_map (attributeSources_nodup c) hfs hs' rfl
      simp only [Prod.mk.injEq, true_and] at this
      exact h0 ⟨trivial, by rw [← this]; exact (sprintfD_eq_zero_iff _).2 hz⟩
    · intro hne
      exact ⟨_, ⟨_, hfs, rfl⟩, sprintfD_ne_empty _,
        fun h => hne ((sprintfD_eq_zero_iff _).1 h.2)⟩
  · intro slug src hs v
    simp only [← GetAttributes.key_eq, mem_GetAttributes]
    rintro ⟨⟨slug', hs', hk⟩, _, _⟩
    have hslug' := GetAttributes.key_injective hk
    subst hslug'
    have := List.inj_on_of_nodup_map (attributeSources_nodup c) hs' hs rfl
    simpa using this

/-- Claim C6, at a concrete input: `Defaults` with the issuer name `ca-issuer`
and `FsGroup` 5 is accepted by `Validate`, and the statement holds of it. -/
theorem GetAttributes_spec_witness :
    ({ Defaults with IssuerName := "ca-issuer", FsGroup := 5 } : Config).Validate = .ok () ∧
    ∃ m, ({ Defaults with IssuerName := "ca-issuer", FsGroup := 5 } : Config).GetAttributes
        = .ok m ∧
      ("csi.cert-manager.io/fs-group", "5") ∈ m ∧
      ("csi.cert-manager.io/issuer-name", "ca-issuer") ∈ m ∧
      ∀ v, ("csi.cert-manager.io/issuer-kind", v) ∉ m := by
  refine ⟨by decide, ?_⟩
  obtain ⟨m, hm, -, -, -, -, -⟩ :=
    GetAttributes_spec { Defaults with IssuerName := "ca-issuer", FsGroup := 5 } (by decide)
  refine ⟨m, hm, ?_⟩
  have hd : ({ Defaults with IssuerName := "ca-issuer", FsGroup := 5 } : Config).GetAttributes
      = .ok [("csi.cert-manager.io/issuer-name", "ca-issuer"),
             ("csi.cert-manager.io/fs-group", "5"),
             ("csi.cert-manager.io/is-ca", "false"),
             ("csi.cert-manager.io/reuse-private-key", "false"),
             ("csi.cert-manager.io/pkcs12-enable", "false")] := by decide
  rw [hd] at hm
  cases hm
  simp

/-- Claim C7, refuted as stated: on the configuration with `FsGroup` 0 and all
other fields empty, and on the one with `FsGroup` 5 and all other fields empty,
`GetAttributes` panics (the configuration has no scope, issuer name or mount
path); it returns neither the empty map nor the map of the one key `fs-group`. -/
theorem GetAttributes_zero_config_panics :
    Config.zero.FsGroup = 0 ∧
    Config.zero.GetAttributes
      = .error "Validation failed. This should never happen by this point." ∧
    Config.zero.GetAttributes ≠ .ok [] ∧
    ({ Config.zero with FsGroup := 5 } : Config).GetAttributes
      = .error "Validation failed. This should never happen by this point." ∧
    ({ Config.zero with FsGroup := 5 } : Config).GetAttributes
      ≠ .ok [("csi.cert-manager.io/fs-group", "5")] := by
  decide

/-- Claim C7, amended. On the configuration with `FsGroup` 0 (or 5) and all
other fields empty `GetAttributes` panics and produces no map. On every
configuration that `Validate` accepts, the map has no `fs-group` key when
`FsGroup` is 0, and exactly the value `5` under the `fs-group` key when
`FsGroup` is 5. On the configuration with `Namespace` `prod`, `IssuerName`
`ca-issuer`, `MountPath` `/var/run/tls` and every other field empty, the map
has the four keys `issuer-name`, `is-ca`, `reuse-private-key`, `pkcs12-enable`
when `FsGroup` is 0, and these four and `fs-group` = `5` when `FsGroup` is 5
(the entries are listed in the order of the literal). -/
theorem GetAttributes_fsGroup_omission :
    (Config.zero.GetAttributes
        = .error "Validation failed. This should never happen by this point." ∧
      ({ Config.zero with FsGroup := 5 } : Config).GetAttributes
        = .error "Validation failed. This should never happen by this point.") ∧
    (∀ c : Config, c.Validate = .ok () →
      ∃ m, c.GetAttributes = .ok m ∧
        (c.FsGroup = 0 → ∀ v, ("csi.cert-manager.io/fs-group", v) ∉ m) ∧
        (c.FsGroup = 5 → ∀ v, ("csi.cert-manager.io/fs-group", v) ∈ m ↔ v = "5")) ∧
    ({ Config.zero with
        Namespace := "prod", IssuerName := "ca-issuer", MountPath := "/var/run/tls",
        FsGroup := 0 } : Config).GetAttributes
      = .ok [("csi.cert-manager.io/issuer-name", "ca-issuer"),
             ("csi.cert-manager.io/is-ca", "false"),
             ("csi.cert-manager.io/reuse-private-key", "false"),
             ("csi.cert-manager.io/pkcs12-enable", "false")] ∧
    ({ Config.zero with
        Namespace := "prod", IssuerName := "ca-issuer", MountPath := "/var/run/tls",
        FsGroup := 5 } : Config).GetAttributes
      = .ok [("csi.cert-manager.io/issuer-name", "ca-issuer"),
             ("csi.cert-manager.io/fs-group", "5"),
             ("csi.cert-manager.io/is-ca", "false"),
             ("csi.cert-manager.io/reuse-private-key", "false"),
             ("csi.cert-manager.io/pkcs12-enable", "false")] := by
  refine ⟨by decide, ?_, by decide, by decide⟩
  intro c hv
  have hfs : ("fs-group", sprintfD c.FsGroup) ∈ attributeSources c := by
    simp [attributeSources]
  have hkey : ("csi.cert-manager.io/fs-group" : String) = GetAttributes.key "fs-group" := by
    decide
  have hval : ∀ v, ("csi.cert-manager.io/fs-group", v) ∈
        (GetAttributes.literal c).filter (fun kv => decide (¬ GetAttributes.pruned kv)) ↔
      v = sprintfD c.FsGroup ∧ c.FsGroup ≠ 0 := by
    intro v
    rw [hkey, mem_GetAttributes]
    constructor
    · rintro ⟨⟨slug, hs, hk⟩, _, h0⟩
      have hslug := GetAttributes.key_injective hk
      subst hslug
      have := List.inj_on_of_nodup_map (attributeSources_nodup c) hs hfs rfl
      simp only [Prod.mk.injEq, true_and] at this
      subst this
      exact ⟨rfl, fun hz => h0 ⟨rfl, (sprintfD_eq_zero_iff _).2 hz⟩⟩
    · rintro ⟨rfl, hne⟩
      exact ⟨⟨_, hfs, rfl⟩, sprintfD_ne_empty _,
        fun h => hne ((sprintfD_eq_zero_iff _).1 h.2)⟩
  refine ⟨_, GetAttributes_ok c hv, ?_, ?_⟩
  · intro hz v hmem
    exact ((hval v).1 hmem).2 hz
  · intro h5 v
    rw [hval, h5]
    have : sprintfD 5 = "5" := by decide
    rw [this]
    simp

/-! ## The volume and mount synthesizer -/

/-- Claim C8. For every configuration and every attribute map,
`GetVolumeAndMount` returns a volume and a mount that are both named
`cert-manager-tls`; the volume is a CSI volume with driver
`csi.cert-manager.io`, read-only true, and the supplied map as its volume
attributes; the mount has the configuration's `MountPath` and is read-only.
The function validates nothing: it is total, and the configuration and the map
come into the result only as said. -/
theorem GetVolumeAndMount_spec (c : Config) (attributes : StringMap) :
    (c.GetVolumeAndMount attributes).1.Name = "cert-manager-tls" ∧
    (c.GetVolumeAndMount attributes).2.Name = "cert-manager-tls" ∧
    (c.GetVolumeAndMount attributes).1.VolumeSource.CSI
      = some { Driver := "csi.cert-manager.io", ReadOnly := some true, FSType := none,
               VolumeAttributes := attributes, NodePublishSecretRef := none } ∧
    (c.GetVolumeAndMount attributes).1.VolumeSource.EmptyDir = none ∧
    (c.GetVolumeAndMount attributes).2.MountPath = c.MountPath ∧
    (c.GetVolumeAndMount attributes).2.ReadOnly = true :=
  ⟨rfl, rfl, rfl, rfl, rfl, rfl⟩

/-! ## The merge engine -/

/-- The inner loop of `deepMergeVolumes` finds no entry with the name of `new` iff `dst` has
none. -/
theorem deepMergeVolumes_scan_eq_none (new : Volume) (dst : List Volume) :
    deepMergeVolumes.scan new dst = none ↔ ∀ e ∈ dst, e.Name ≠ new.Name := by
  induction dst with
  | nil => simp [deepMergeVolumes.scan]
  | cons current rest ih =>
    by_cases h : current.Name = new.Name
    · simp [deepMergeVolumes.scan, h]
    · simp [deepMergeVolumes.scan, h, ih]

/-- When `dst` has an entry with the name of `new`, the inner loop of `deepMergeVolumes`
overwrites the first such entry, at its index, and nothing else. -/
theorem deepMergeVolumes_scan_eq_set (new : Volume) (dst : List Volume)
    (h : ∃ e ∈ dst, e.Name = new.Name) :
    ∃ i, i < dst.length ∧ (∃ e, dst[i]? = some e ∧ e.Name = new.Name) ∧
      (∀ j, j < i → ∀ e, dst[j]? = some e → e.Name ≠ new.Name) ∧
      deepMergeVolumes.scan new dst = some (dst.set i new) := by
  induction dst with
  | nil => simp at h
  | cons current rest ih =>
    by_cases hc : current.Name = new.Name
    · exact ⟨0, by simp, ⟨current, by simp, hc⟩, fun j hj => absurd hj (Nat.not_lt_zero j),
        by simp [deepMergeVolumes.scan, hc]⟩
    · have h' : ∃ e ∈ rest, e.Name = new.Name := by
        obtain ⟨e, he, hn⟩ := h
        rcases List.mem_cons.1 he with rfl | he
        · exact absurd hn hc
        · exact ⟨e, he, hn⟩
      obtain ⟨i, hi, hfound, hfirst, hscan⟩ := ih h'
      refine ⟨i + 1, by simpa using hi, by simpa using hfound, ?_, by simp [deepMergeVolumes.scan, hc, hscan]⟩
      intro j hj e hje
      cases j with
      | zero =>
        simp only [List.getElem?_cons_zero, Option.some.injEq] at hje
        exact hje ▸ hc
      | succ j =>
        exact hfirst j (Nat.lt_of_succ_lt_succ hj) e (by simpa using hje)

/-- One step of the outer loop of `deepMergeVolumes`. -/
theorem deepMergeVolumes_cons (dst : List Volume) (new : Volume) (elements : List Volume) :
    deepMergeVolumes dst (new :: elements) = deepMergeVolumes (deepMergeVolumes dst [new]) elements := rfl

/-- Merging one entry whose name `dst` does not have appends it. -/
theorem deepMergeVolumes_append (dst : List Volume) (new : Volume)
    (h : ∀ e ∈ dst, e.Name ≠ new.Name) : deepMergeVolumes dst [new] = dst ++ [new] := by
  simp [deepMergeVolumes, (deepMergeVolumes_scan_eq_none new dst).2 h]

/-- The entries of another name than `new` are, in order, the same before and
after the inner loop of `deepMergeVolumes` has overwritten an entry. -/
theorem deepMergeVolumes_scan_filter (new : Volume) (dst result : List Volume)
    (h : deepMergeVolumes.scan new dst = some result) :
    result.filter (fun e => decide (e.Name ≠ new.Name))
      = dst.filter (fun e => decide (e.Name ≠ new.Name)) := by
  induction dst generalizing result with
  | nil => simp [deepMergeVolumes.scan] at h
  | cons current rest ih =>
    by_cases hc : current.Name = new.Name
    · simp only [deepMergeVolumes.scan, hc, if_true, Option.some.injEq] at h
      subst h
      simp [hc]
    · simp only [deepMergeVolumes.scan, hc, if_false, Option.map_eq_some'] at h
      obtain ⟨rest', hrest, rfl⟩ := h
      have hd : decide (current.Name ≠ new.Name) = true := by simp [hc]
      simp only [List.filter_cons, hd, if_true]
      rw [ih rest' hrest]

/-- The inner loop of `deepMergeMounts` finds no entry with the name of `new` iff `dst` has
none. -/
theorem deepMergeMounts_scan_eq_none (new : VolumeMount) (dst : List VolumeMount) :
    deepMergeMounts.scan new dst = none ↔ ∀ e ∈ dst, e.Name ≠ new.Name := by
  induction dst with
  | nil => simp [deepMergeMounts.scan]
  | cons current rest ih =>
    by_cases h : current.Name = new.Name
    · simp [deepMergeMounts.scan, h]
    · simp [deepMergeMounts.scan, h, ih]

/-- When `dst` has an entry with the name of `new`, the inner loop of `deepMergeMounts`
overwrites the first such entry, at its index, and nothing else. -/
theorem deepMergeMounts_scan_eq_set (new : VolumeMount) (dst : List VolumeMount)
    (h : ∃ e ∈ dst, e.Name = new.Name) :
    ∃ i, i < dst.length ∧ (∃ e, dst[i]? = some e ∧ e.Name = new.Name) ∧
      (∀ j, j < i → ∀ e, dst[j]? = some e → e.Name ≠ new.Name) ∧
      deepMergeMounts.scan new dst = some (dst.set i new) := by
  induction dst with
  | nil => simp at h
  | cons current rest ih =>
    by_cases hc : current.Name = new.Name
    · exact ⟨0, by simp, ⟨current, by simp, hc⟩, fun j hj => absurd hj (Nat.not_lt_zero j),
        by simp [deepMergeMounts.scan, hc]⟩
    · have h' : ∃ e ∈ rest, e.Name = new.Name := by
        obtain ⟨e, he, hn⟩ := h
        rcases List.mem_cons.1 he with rfl | he
        · exact absurd hn hc
        · exact ⟨e, he, hn⟩
      obtain ⟨i, hi, hfound, hfirst, hscan⟩ := ih h'
      refine ⟨i + 1, by simpa using hi, by simpa using hfound, ?_, by simp [deepMergeMounts.scan, hc, hscan]⟩
      intro j hj e hje
      cases j with
      | zero =>
        simp only [List.getElem?_cons_zero, Option.some.injEq] at hje
        exact hje ▸ hc
      | succ j =>
        exact hfirst j (Nat.lt_of_succ_lt_succ hj) e (by simpa using hje)

/-- One step of the outer loop of `deepMergeMounts`. -/
theorem deepMergeMounts_cons (dst : List VolumeMount) (new : VolumeMount) (elements : List VolumeMount) :
    deepMergeMounts dst (new :: elements) = deepMergeMounts (deepMergeMounts dst [new]) elements := rfl

/-- Merging one entry whose name `dst` does not have appends it. -/
theorem deepMergeMounts_append (dst : List VolumeMount) (new : VolumeMount)
    (h : ∀ e ∈ dst, e.Name ≠ new.Name) : deepMergeMounts dst [new] = dst ++ [new] := by
  simp [deepMergeMounts, (deepMergeMounts_scan_eq_none new dst).2 h]

/-- The entries of another name than `new` are, in order, the same before and
after the inner loop of `deepMergeMounts` has overwritten an entry. -/
theorem deepMergeMounts_scan_filter (new : VolumeMount) (dst result : List VolumeMount)
    (h : deepMergeMounts.scan new dst = some result) :
    result.filter (fun e => decide (e.Name ≠ new.Name))
      = dst.filter (fun e => decide (e.Name ≠ new.Name)) := by
  induction dst generalizing result with
  | nil => simp [deepMergeMounts.scan] at h
  | cons current rest ih =>
    by_cases hc : current.Name = new.Name
    · simp only [deepMergeMounts.scan, hc, if_true, Option.some.injEq] at h
      subst h
      simp [hc]
    · simp only [deepMergeMounts.scan, hc, if_false, Option.map_eq_some'] at h
      obtain ⟨rest', hrest, rfl⟩ := h
      have hd : decide (current.Name ≠ new.Name) = true := by simp [hc]
      simp only [List.filter_cons, hd, if_true]
      rw [ih rest' hrest]

/-- The function `deepMergeVolumes` on one new entry follows the replace-first-or-append
rule. -/
theorem deepMergeVolumes_single (dst : List Volume) (new : Volume) :
    ReplaceFirstOrAppend Volume.Name dst new (deepMergeVolumes dst [new]) := by
  constructor
  · intro h
    obtain ⟨i, hi, hfound, hfirst, hscan⟩ := deepMergeVolumes_scan_eq_set new dst h
    have hr : deepMergeVolumes dst [new] = dst.set i new := by simp [deepMergeVolumes, hscan]
    refine ⟨i, hi, hfound, hfirst, ?_, ?_, ?_⟩
    · rw [hr, List.length_set]
    · rw [hr, List.getElem?_set, if_pos rfl, if_pos hi]
    · intro j hj
      rw [hr, List.getElem?_set_ne (Ne.symm hj)]
  · intro h
    exact deepMergeVolumes_append dst new fun e he hn => h ⟨e, he, hn⟩

/-- The function `deepMergeVolumes` on several new entries is the one-entry merge, entry after
entry in the order given, each against the sequence the entries before it
have produced. -/
theorem deepMergeVolumes_eq_foldl (dst elements : List Volume) :
    deepMergeVolumes dst elements = elements.foldl (fun dst new => deepMergeVolumes dst [new]) dst := by
  induction elements generalizing dst with
  | nil => rfl
  | cons new elements ih => rw [deepMergeVolumes_cons, ih, List.foldl_cons]

/-- The entries of another name than `new` are, in order, the same before and
after `deepMergeVolumes` merges `new`. -/
theorem deepMergeVolumes_filter (dst : List Volume) (new : Volume) :
    (deepMergeVolumes dst [new]).filter (fun e => decide (e.Name ≠ new.Name))
      = dst.filter (fun e => decide (e.Name ≠ new.Name)) := by
  cases hscan : deepMergeVolumes.scan new dst with
  | none =>
    have hr : deepMergeVolumes dst [new] = dst ++ [new] := by simp [deepMergeVolumes, hscan]
    rw [hr, List.filter_append]
    simp
  | some result =>
    have hr : deepMergeVolumes dst [new] = result := by simp [deepMergeVolumes, hscan]
    rw [hr]
    exact deepMergeVolumes_scan_filter new dst result hscan

/-- The function `deepMergeMounts` on one new entry follows the replace-first-or-append
rule. -/
theorem deepMergeMounts_single (dst : List VolumeMount) (new : VolumeMount) :
    ReplaceFirstOrAppend VolumeMount.Name dst new (deepMergeMounts dst [new]) := by
  constructor
  · intro h
    obtain ⟨i, hi, hfound, hfirst, hscan⟩ := deepMergeMounts_scan_eq_set new dst h
    have hr : deepMergeMounts dst [new] = dst.set i new := by simp [deepMergeMounts, hscan]
    refine ⟨i, hi, hfound, hfirst, ?_, ?_, ?_⟩
    · rw [hr, List.length_set]
    · rw [hr, List.getElem?_set, if_pos rfl, if_pos hi]
    · intro j hj
      rw [hr, List.getElem?_set_ne (Ne.symm hj)]
  · intro h
    exact deepMergeMounts_append dst new fun e he hn => h ⟨e, he, hn⟩

/-- The function `deepMergeMounts` on several new entries is the one-entry merge, entry after
entry in the order given, each against the sequence the entries before it
have produced. -/
theorem deepMergeMounts_eq_foldl (dst elements : List VolumeMount) :
    deepMergeMounts dst elements = elements.foldl (fun dst new => deepMergeMounts dst [new]) dst := by
  induction elements generalizing dst with
  | nil => rfl
  | cons new elements ih => rw [deepMergeMounts_cons, ih, List.foldl_cons]

/-- The entries of another name than `new` are, in order, the same before and
after `deepMergeMounts` merges `new`. -/
theorem deepMergeMounts_filter (dst : List VolumeMount) (new : VolumeMount) :
    (deepMergeMounts dst [new]).filter (fun e => decide (e.Name ≠ new.Name))
      = dst.filter (fun e => decide (e.Name ≠ new.Name)) := by
  cases hscan : deepMergeMounts.scan new dst with
  | none =>
    have hr : deepMergeMounts dst [new] = dst ++ [new] := by simp [deepMergeMounts, hscan]
    rw [hr, List.filter_append]
    simp
  | some result =>
    have hr : deepMergeMounts dst [new] = result := by simp [deepMergeMounts, hscan]
    rw [hr]
    exact deepMergeMounts_scan_filter new dst result hscan

/-- Claim C9. `deepMergeVolumes` and `deepMergeMounts` implement
replace-first-or-append: with one new entry, if some entry of `dst` has its
name the result has the length of `dst`, is the new entry at the first index
whose entry has that name and is `dst` at every other index, and otherwise the
result is `dst` with the new entry appended; with several new entries the
result is that of applying the one-entry merge to each entry in the order
given, against the progressively updated sequence; with no new entry the
result is `dst`. -/
theorem deepMerge_replace_first_or_append
    (volumes : List Volume) (volume : Volume) (newVolumes : List Volume)
    (mounts : List VolumeMount) (mount : VolumeMount) (newMounts : List VolumeMount) :
    (ReplaceFirstOrAppend Volume.Name volumes volume (deepMergeVolumes volumes [volume]) ∧
      deepMergeVolumes volumes newVolumes
        = newVolumes.foldl (fun dst new => deepMergeVolumes dst [new]) volumes ∧
      deepMergeVolumes volumes [] = volumes) ∧
    (ReplaceFirstOrAppend VolumeMount.Name mounts mount (deepMergeMounts mounts [mount]) ∧
      deepMergeMounts mounts newMounts
        = newMounts.foldl (fun dst new => deepMergeMounts dst [new]) mounts ∧
      deepMergeMounts mounts [] = mounts) :=
  ⟨⟨deepMergeVolumes_single volumes volume, deepMergeVolumes_eq_foldl volumes newVolumes, rfl⟩,
   ⟨deepMergeMounts_single mounts mount, deepMergeMounts_eq_foldl mounts newMounts, rfl⟩⟩

/-- Claim C9, at concrete inputs: with two entries named `tls` in `dst`, the merge
of a new `tls` overwrites the first and keeps the second; a name that `dst`
does not have is appended; two new entries are merged one after the other. -/
theorem deepMerge_replace_first_or_append_witness :
    deepMergeMounts
        [ { Name := "data", ReadOnly := false, MountPath := "/data", SubPath := "",
            MountPropagation := none, SubPathExpr := "" },
          { Name := "tls", ReadOnly := false, MountPath := "/old", SubPath := "",
            MountPropagation := none, SubPathExpr := "" },
          { Name := "tls", ReadOnly := false, MountPath := "/older", SubPath := "",
            MountPropagation := none, SubPathExpr := "" } ]
        [ { Name := "tls", ReadOnly := true, MountPath := "/new", SubPath := "",
            MountPropagation := none, SubPathExpr := "" },
          { Name := "logs", ReadOnly := false, MountPath := "/logs", SubPath := "",
            MountPropagation := none, SubPathExpr := "" } ]
      = [ { Name := "data", ReadOnly := false, MountPath := "/data", SubPath := "",
            MountPropagation := none, SubPathExpr := "" },
          { Name := "tls", ReadOnly := true, MountPath := "/new", SubPath := "",
            MountPropagation := none, SubPathExpr := "" },
          { Name := "tls", ReadOnly := false, MountPath := "/older", SubPath := "",
            MountPropagation := none, SubPathExpr := "" },
          { Name := "logs", ReadOnly := false, MountPath := "/logs", SubPath := "",
            MountPropagation := none, SubPathExpr := "" } ] ∧
    deepMergeVolumes
        [ { Name := "tls", VolumeSource := { EmptyDir := some "Memory", CSI := none } } ]
        [ { Name := "tls", VolumeSource := { EmptyDir := none, CSI := none } } ]
      = [ { Name := "tls", VolumeSource := { EmptyDir := none, CSI := none } } ] := by
  constructor
  · rw [(deepMerge_replace_first_or_append [] ⟨"", ⟨none, none⟩⟩ [] _ ⟨"", false, "", "", none, ""⟩
      _).2.2.1]
    decide
  · rw [(deepMerge_replace_first_or_append _ ⟨"", ⟨none, none⟩⟩ _ [] ⟨"", false, "", "", none, ""⟩
      []).1.2.1]
    decide

/-- Claim C10. The merge preserves the unrelated entries: for every volume
(resp. mount) sequence and every new entry, the entries of the merge result
whose name differs from the new entry's name are, entry for entry and in the
same order, the entries of the given sequence whose name differs from the new
entry's name. -/
theorem deepMerge_preserves_unrelated
    (volumes : List Volume) (volume : Volume) (mounts : List VolumeMount) (mount : VolumeMount) :
    (deepMergeVolumes volumes [volume]).filter (fun e => decide (e.Name ≠ volume.Name))
        = volumes.filter (fun e => decide (e.Name ≠ volume.Name)) ∧
    (deepMergeMounts mounts [mount]).filter (fun e => decide (e.Name ≠ mount.Name))
        = mounts.filter (fun e => decide (e.Name ≠ mount.Name)) :=
  ⟨deepMergeVolumes_filter volumes volume, deepMergeMounts_filter mounts mount⟩

/-- Once the inner loop of `deepMergeVolumes` has overwritten an entry by `new`, running it
again on the result changes nothing. -/
theorem deepMergeVolumes_scan_idem (new : Volume) (dst result : List Volume)
    (h : deepMergeVolumes.scan new dst = some result) : deepMergeVolumes.scan new result = some result := by
  induction dst generalizing result with
  | nil => simp [deepMergeVolumes.scan] at h
  | cons current rest ih =>
    by_cases hc : current.Name = new.Name
    · simp only [deepMergeVolumes.scan, hc, if_true, Option.some.injEq] at h
      subst h
      simp [deepMergeVolumes.scan]
    · simp only [deepMergeVolumes.scan, hc, if_false, Option.map_eq_some'] at h
      obtain ⟨rest', hrest, rfl⟩ := h
      simp [deepMergeVolumes.scan, hc, ih rest' hrest]

/-- Once `new` has been appended, the inner loop of `deepMergeVolumes` finds it and overwrites
it by itself. -/
theorem deepMergeVolumes_scan_append (new : Volume) (dst : List Volume)
    (h : deepMergeVolumes.scan new dst = none) : deepMergeVolumes.scan new (dst ++ [new]) = some (dst ++ [new]) := by
  induction dst with
  | nil => simp [deepMergeVolumes.scan]
  | cons current rest ih =>
    by_cases hc : current.Name = new.Name
    · simp [deepMergeVolumes.scan, hc] at h
    · simp only [deepMergeVolumes.scan, hc, if_false, Option.map_eq_none'] at h
      simp [deepMergeVolumes.scan, hc, ih h]

/-- Merging the same entry a second time changes nothing. -/
theorem deepMergeVolumes_idem (dst : List Volume) (new : Volume) :
    deepMergeVolumes (deepMergeVolumes dst [new]) [new] = deepMergeVolumes dst [new] := by
  cases hscan : deepMergeVolumes.scan new dst with
  | none =>
    have hr : deepMergeVolumes dst [new] = dst ++ [new] := by simp [deepMergeVolumes, hscan]
    rw [hr]
    simp [deepMergeVolumes, deepMergeVolumes_scan_append new dst hscan]
  | some result =>
    have hr : deepMergeVolumes dst [new] = result := by simp [deepMergeVolumes, hscan]
    rw [hr]
    simp [deepMergeVolumes, deepMergeVolumes_scan_idem new dst result hscan]

/-- The entries with the name of `new` after the inner loop of `deepMergeVolumes` has
overwritten one: `new`, then the entries with that name but the first. -/
theorem deepMergeVolumes_scan_filter_same (new : Volume) (dst result : List Volume)
    (h : deepMergeVolumes.scan new dst = some result) :
    result.filter (fun e => decide (e.Name = new.Name))
      = new :: (dst.filter (fun e => decide (e.Name = new.Name))).tail := by
  induction dst generalizing result with
  | nil => simp [deepMergeVolumes.scan] at h
  | cons current rest ih =>
    by_cases hc : current.Name = new.Name
    · simp only [deepMergeVolumes.scan, hc, if_true, Option.some.injEq] at h
      subst h
      simp [List.filter_cons, hc]
    · simp only [deepMergeVolumes.scan, hc, if_false, Option.map_eq_some'] at h
      obtain ⟨rest', hrest, rfl⟩ := h
      simp only [List.filter_cons, hc, decide_False, Bool.false_eq_true, if_false]
      exact ih rest' hrest

/-- The entries with the name of `new` after `deepMergeVolumes` has merged it: `new`, then the
entries of `dst` with that name but the first. -/
theorem deepMergeVolumes_filter_same (dst : List Volume) (new : Volume) :
    (deepMergeVolumes dst [new]).filter (fun e => decide (e.Name = new.Name))
      = new :: (dst.filter (fun e => decide (e.Name = new.Name))).tail := by
  cases hscan : deepMergeVolumes.scan new dst with
  | none =>
    have hr : deepMergeVolumes dst [new] = dst ++ [new] := by simp [deepMergeVolumes, hscan]
    have hnone : dst.filter (fun e => decide (e.Name = new.Name)) = [] := by
      rw [List.filter_eq_nil_iff]
      intro e he
      simpa using (deepMergeVolumes_scan_eq_none new dst).1 hscan e he
    rw [hr, List.filter_append, hnone]
    simp
  | some result =>
    have hr : deepMergeVolumes dst [new] = result := by simp [deepMergeVolumes, hscan]
    rw [hr]
    exact deepMergeVolumes_scan_filter_same new dst result hscan

/-- The new entry is in the result of merging it. -/
theorem deepMergeVolumes_mem (dst : List Volume) (new : Volume) : new ∈ deepMergeVolumes dst [new] := by
  have h := deepMergeVolumes_filter_same dst new
  have : new ∈ (deepMergeVolumes dst [new]).filter (fun e => decide (e.Name = new.Name)) := by
    rw [h]; exact List.mem_cons_self _ _
  exact (List.mem_filter.1 this).1

/-- Merging one entry keeps the length or adds one to it. -/
theorem deepMergeVolumes_length (dst : List Volume) (new : Volume) :
    dst.length ≤ (deepMergeVolumes dst [new]).length ∧ (deepMergeVolumes dst [new]).length ≤ dst.length + 1 := by
  by_cases h : ∃ e ∈ dst, e.Name = new.Name
  · obtain ⟨i, _, _, _, hscan⟩ := deepMergeVolumes_scan_eq_set new dst h
    have hr : deepMergeVolumes dst [new] = dst.set i new := by simp [deepMergeVolumes, hscan]
    rw [hr, List.length_set]
    exact ⟨Nat.le_refl _, Nat.le_succ _⟩
  · rw [deepMergeVolumes_append dst new fun e he hn => h ⟨e, he, hn⟩]
    simp

/-- Once the inner loop of `deepMergeMounts` has overwritten an entry by `new`, running it
again on the result changes nothing. -/
theorem deepMergeMounts_scan_idem (new : VolumeMount) (dst result : List VolumeMount)
    (h : deepMergeMounts.scan new dst = some result) : deepMergeMounts.scan new result = some result := by
  induction dst generalizing result with
  | nil => simp [deepMergeMounts.scan] at h
  | cons current rest ih =>
    by_cases hc : current.Name = new.Name
    · simp only [deepMergeMounts.scan, hc, if_true, Option.some.injEq] at h
      subst h
      simp [deepMergeMounts.scan]
    · simp only [deepMergeMounts.scan, hc, if_false, Option.map_eq_some'] at h
      obtain ⟨rest', hrest, rfl⟩ := h
      simp [deepMergeMounts.scan, hc, ih rest' hrest]

/-- Once `new` has been appended, the inner loop of `deepMergeMounts` finds it and overwrites
it by itself. -/
theorem deepMergeMounts_scan_append (new : VolumeMount) (dst : List VolumeMount)
    (h : deepMergeMounts.scan new dst = none) : deepMergeMounts.scan new (dst ++ [new]) = some (dst ++ [new]) := by
  induction dst with
  | nil => simp [deepMergeMounts.scan]
  | cons current rest ih =>
    by_cases hc : current.Name = new.Name
    · simp [deepMergeMounts.scan, hc] at h
    · simp only [deepMergeMounts.scan, hc, if_false, Option.map_eq_none'] at h
      simp [deepMergeMounts.scan, hc, ih h]

/-- Merging the same entry a second time changes nothing. -/
theorem deepMergeMounts_idem (dst : List VolumeMount) (new : VolumeMount) :
    deepMergeMounts (deepMergeMounts dst [new]) [new] = deepMergeMounts dst [new] := by
  cases hscan : deepMergeMounts.scan new dst with
  | none =>
    have hr : deepMergeMounts dst [new] = dst ++ [new] := by simp [deepMergeMounts, hscan]
    rw [hr]
    simp [deepMergeMounts, deepMergeMounts_scan_append new dst hscan]
  | some result =>
    have hr : deepMergeMounts dst [new] = result := by simp [deepMergeMounts, hscan]
    rw [hr]
    simp [deepMergeMounts, deepMergeMounts_scan_idem new dst result hscan]

/-- The entries with the name of `new` after the inner loop of `deepMergeMounts` has
overwritten one: `new`, then the entries with that name but the first. -/
theorem deepMergeMounts_scan_filter_same (new : VolumeMount) (dst result : List VolumeMount)
    (h : deepMergeMounts.scan new dst = some result) :
    result.filter (fun e => decide (e.Name = new.Name))
      = new :: (dst.filter (fun e => decide (e.Name = new.Name))).tail := by
  induction dst generalizing result with
  | nil => simp [deepMergeMounts.scan] at h
  | cons current rest ih =>
    by_cases hc : current.Name = new.Name
    · simp only [deepMergeMounts.scan, hc, if_true, Option.some.injEq] at h
      subst h
      simp [List.filter_cons, hc]
    · simp only [deepMergeMounts.scan, hc, if_false, Option.map_eq_some'] at h
      obtain ⟨rest', hrest, rfl⟩ := h
      simp only [List.filter_cons, hc, decide_False, Bool.false_eq_true, if_false]
      exact ih rest' hrest

/-- The entries with the name of `new` after `deepMergeMounts` has merged it: `new`, then the
entries of `dst` with that name but the first. -/
theorem deepMergeMounts_filter_same (dst : List VolumeMount) (new : VolumeMount) :
    (deepMergeMounts dst [new]).filter (fun e => decide (e.Name = new.Name))
      = new :: (dst.filter (fun e => decide (e.Name = new.Name))).tail := by
  cases hscan : deepMergeMounts.scan new dst with
  | none =>
    have hr : deepMergeMounts dst [new] = dst ++ [new] := by simp [deepMergeMounts, hscan]
    have hnone : dst.filter (fun e => decide (e.Name = new.Name)) = [] := by
      rw [List.filter_eq_nil_iff]
      intro e he
      simpa using (deepMergeMounts_scan_eq_none new dst).1 hscan e he
    rw [hr, List.filter_append, hnone]
    simp
  | some result =>
    have hr : deepMergeMounts dst [new] = result := by simp [deepMergeMounts, hscan]
    rw [hr]
    exact deepMergeMounts_scan_filter_same new dst result hscan

/-- The new entry is in the result of merging it. -/
theorem deepMergeMounts_mem (dst : List VolumeMount) (new : VolumeMount) : new ∈ deepMergeMounts dst [new] := by
  have h := deepMergeMounts_filter_same dst new
  have : new ∈ (deepMergeMounts dst [new]).filter (fun e => decide (e.Name = new.Name)) := by
    rw [h]; exact List.mem_cons_self _ _
  exact (List.mem_filter.1 this).1

/-- Merging one entry keeps the length or adds one to it. -/
theorem deepMergeMounts_length (dst : List VolumeMount) (new : VolumeMount) :
    dst.length ≤ (deepMergeMounts dst [new]).length ∧ (deepMergeMounts dst [new]).length ≤ dst.length + 1 := by
  by_cases h : ∃ e ∈ dst, e.Name = new.Name
  · obtain ⟨i, _, _, _, hscan⟩ := deepMergeMounts_scan_eq_set new dst h
    have hr : deepMergeMounts dst [new] = dst.set i new := by simp [deepMergeMounts, hscan]
    rw [hr, List.length_set]
    exact ⟨Nat.le_refl _, Nat.le_succ _⟩
  · rw [deepMergeMounts_append dst new fun e he hn => h ⟨e, he, hn⟩]
    simp

/-- Claim C11, refuted as stated: the mount list has two entries named `tls`;
after the merge of a new entry named `tls` the result still has two entries of
that name, the new one and the second of the old ones. -/
theorem deepMergeMounts_keeps_later_duplicates :
    (∃ e ∈ ([ { Name := "tls", ReadOnly := false, MountPath := "/old", SubPath := "",
                MountPropagation := none, SubPathExpr := "" },
              { Name := "tls", ReadOnly := false, MountPath := "/older", SubPath := "",
                MountPropagation := none, SubPathExpr := "" } ] : List VolumeMount),
        e.Name = "tls") ∧
    (deepMergeMounts
        [ { Name := "tls", ReadOnly := false, MountPath := "/old", SubPath := "",
            MountPropagation := none, SubPathExpr := "" },
          { Name := "tls", ReadOnly := false, MountPath := "/older", SubPath := "",
            MountPropagation := none, SubPathExpr := "" } ]
        [ { Name := "tls", ReadOnly := true, MountPath := "/new", SubPath := "",
            MountPropagation := none, SubPathExpr := "" } ]).filter
        (fun e => decide (e.Name = "tls"))
      = [ { Name := "tls", ReadOnly := true, MountPath := "/new", SubPath := "",
            MountPropagation := none, SubPathExpr := "" },
          { Name := "tls", ReadOnly := false, MountPath := "/older", SubPath := "",
            MountPropagation := none, SubPathExpr := "" } ] := by
  decide

/-- Claim C11, amended. After the merge of a new entry into a volume (resp.
mount) sequence, the entries of the result that have the new entry's name are
the new entry followed by the entries of the given sequence with that name
other than the first of them. So when the given sequence has exactly one entry
(or none) with the new entry's name, whatever its content, the result has
exactly one entry with that name, and it is the new entry. -/
theorem deepMerge_replaces_first_by_name
    (volumes : List Volume) (volume : Volume) (mounts : List VolumeMount) (mount : VolumeMount) :
    ((deepMergeVolumes volumes [volume]).filter (fun e => decide (e.Name = volume.Name))
        = volume :: (volumes.filter (fun e => decide (e.Name = volume.Name))).tail ∧
      ((volumes.filter (fun e => decide (e.Name = volume.Name))).length ≤ 1 →
        (deepMergeVolumes volumes [volume]).filter (fun e => decide (e.Name = volume.Name))
          = [volume])) ∧
    ((deepMergeMounts mounts [mount]).filter (fun e => decide (e.Name = mount.Name))
        = mount :: (mounts.filter (fun e => decide (e.Name = mount.Name))).tail ∧
      ((mounts.filter (fun e => decide (e.Name = mount.Name))).length ≤ 1 →
        (deepMergeMounts mounts [mount]).filter (fun e => decide (e.Name = mount.Name))
          = [mount])) := by
  have tail_nil : ∀ {α : Type} (l : List α), l.length ≤ 1 → l.tail = [] := by
    intro α l hl
    match l, hl with
    | [], _ => rfl
    | [_], _ => rfl
    | _ :: _ :: _, hl => simp at hl
  refine ⟨⟨deepMergeVolumes_filter_same volumes volume, fun h => ?_⟩,
    ⟨deepMergeMounts_filter_same mounts mount, fun h => ?_⟩⟩
  · rw [deepMergeVolumes_filter_same, tail_nil _ h]
  · rw [deepMergeMounts_filter_same, tail_nil _ h]

/-- Claim C11, amended, at a concrete input: the volume list has one entry named
`tls`, an `EmptyDir` volume; after the merge of a CSI-less volume named `tls`
the only entry of that name is the new one. -/
theorem deepMerge_replaces_first_by_name_witness :
    (deepMergeVolumes
        [ { Name := "data", VolumeSource := { EmptyDir := some "", CSI := none } },
          { Name := "tls", VolumeSource := { EmptyDir := some "Memory", CSI := none } } ]
        [ { Name := "tls", VolumeSource := { EmptyDir := none, CSI := none } } ]).filter
        (fun e => decide (e.Name = "tls"))
      = [ { Name := "tls", VolumeSource := { EmptyDir := none, CSI := none } } ] :=
  (deepMerge_replaces_first_by_name
    [ { Name := "data", VolumeSource := { EmptyDir := some "", CSI := none } },
      { Name := "tls", VolumeSource := { EmptyDir := some "Memory", CSI := none } } ]
    { Name := "tls", VolumeSource := { EmptyDir := none, CSI := none } }
    [] ⟨"", false, "", "", none, ""⟩).1.2 (by decide)

/-- Claim C12. The merge is idempotent: for every sequence and every new entry,
merging the entry into the result of merging it gives that result again, for
`deepMergeVolumes` and for `deepMergeMounts`; no condition is put on the
sequence, which may have several entries with the entry's name. -/
theorem deepMerge_idempotent
    (volumes : List Volume) (volume : Volume) (mounts : List VolumeMount) (mount : VolumeMount) :
    deepMergeVolumes (deepMergeVolumes volumes [volume]) [volume]
        = deepMergeVolumes volumes [volume] ∧
    deepMergeMounts (deepMergeMounts mounts [mount]) [mount]
        = deepMergeMounts mounts [mount] :=
  ⟨deepMergeVolumes_idem volumes volume, deepMergeMounts_idem mounts mount⟩

/-- Claim C12, at a concrete input with several entries of the entry's name:
the second merge returns what the first returned. -/
theorem deepMerge_idempotent_witness :
    deepMergeMounts
        (deepMergeMounts
          [ { Name := "tls", ReadOnly := false, MountPath := "/old", SubPath := "",
              MountPropagation := none, SubPathExpr := "" },
            { Name := "tls", ReadOnly := false, MountPath := "/older", SubPath := "",
              MountPropagation := none, SubPathExpr := "" } ]
          [ { Name := "tls", ReadOnly := true, MountPath := "/new", SubPath := "",
              MountPropagation := none, SubPathExpr := "" } ])
        [ { Name := "tls", ReadOnly := true, MountPath := "/new", SubPath := "",
            MountPropagation := none, SubPathExpr := "" } ]
      = [ { Name := "tls", ReadOnly := true, MountPath := "/new", SubPath := "",
            MountPropagation := none, SubPathExpr := "" },
          { Name := "tls", ReadOnly := false, MountPath := "/older", SubPath := "",
            MountPropagation := none, SubPathExpr := "" } ] := by
  rw [(deepMerge_idempotent [] ⟨"", ⟨none, none⟩⟩ _ _).2]
  decide

/-! ## The mutation orchestrator -/

/-- On an unmanaged workload `mutate` returns at once, the pod spec being as it
was given. -/
theorem mutate_unmanaged (c : Config) (m : ObjectMeta) (p : PodSpec)
    (hm : c.IsManaged m = false) : mutate c m p = { podSpec := p, panic := none } := by
  simp [mutate, hm]

/-- On a managed workload and a configuration that `Validate` rejects, `mutate`
ends in the panic of `GetAttributes`, the pod spec being as it was given. -/
theorem mutate_panic (c : Config) (m : ObjectMeta) (p : PodSpec) (e : String)
    (hm : c.IsManaged m = true) (hv : c.Validate = .error e) :
    mutate c m p
      = { podSpec := p,
          panic := some "Validation failed. This should never happen by this point." } := by
  simp [mutate, hm, GetAttributes_panic c e hv]

/-- On a managed workload and a configuration whose attributes are
`attributes`, `mutate` merges the synthesized volume into the volumes and the
synthesized mount into the mounts of every container, and returns. -/
theorem mutate_ok (c : Config) (m : ObjectMeta) (p : PodSpec) (attributes : StringMap)
    (hm : c.IsManaged m = true) (ha : c.GetAttributes = .ok attributes) :
    mutate c m p
      = { podSpec :=
            { p with
              Volumes := deepMergeVolumes p.Volumes [(c.GetVolumeAndMount attributes).1]
              Containers := p.Containers.map fun container =>
                { container with
                  VolumeMounts :=
                    deepMergeMounts container.VolumeMounts
                      [(c.GetVolumeAndMount attributes).2] } },
          panic := none } := by
  simp [mutate, hm, ha]

/-- A configuration either passes `Validate` or is rejected with a message. -/
theorem Validate_cases (c : Config) : c.Validate = .ok () ∨ ∃ e, c.Validate = .error e := by
  cases h : c.Validate with
  | error e => exact Or.inr ⟨e, rfl⟩
  | ok u => cases u; exact Or.inl rfl

/-- Applying `mutate` to the pod spec it has left gives the same result again,
for every configuration, metadata and pod spec. -/
theorem mutate_twice (c : Config) (m : ObjectMeta) (p : PodSpec) :
    mutate c m (mutate c m p).podSpec = mutate c m p := by
  cases hm : c.IsManaged m with
  | false => rw [mutate_unmanaged c m p hm, mutate_unmanaged c m p hm]
  | true =>
    rcases Validate_cases c with hv | ⟨e, hv⟩
    · have ha := GetAttributes_ok c hv
      rw [mutate_ok c m p _ hm ha, mutate_ok c m _ _ hm ha]
      simp only [List.map_map, deepMergeVolumes_idem]
      congr 2
      apply List.map_congr_left
      intro container _
      simp [deepMergeMounts_idem]
    · rw [mutate_panic c m p e hm hv, mutate_panic c m p e hm hv]

/-- Claim C13. `mutate` is idempotent: for every pod spec and every
configuration and metadata for which `IsManaged` is true, applying `mutate` to
the pod spec that a first application has left yields the same pod spec (its
volume list and the mount list of every container) and the same outcome as the
first application. (The hypothesis is not used: the same holds of an unmanaged
workload.) -/
theorem mutate_idempotent (c : Config) (m : ObjectMeta) (p : PodSpec)
    (_hm : c.IsManaged m = true) :
    (mutate c m (mutate c m p).podSpec).podSpec = (mutate c m p).podSpec ∧
    (mutate c m (mutate c m p).podSpec).podSpec.Volumes = (mutate c m p).podSpec.Volumes ∧
    (mutate c m (mutate c m p).podSpec).podSpec.Containers.map Container.VolumeMounts
      = (mutate c m p).podSpec.Containers.map Container.VolumeMounts ∧
    (mutate c m (mutate c m p).podSpec).panic = (mutate c m p).panic := by
  rw [mutate_twice]
  exact ⟨rfl, rfl, rfl, rfl⟩

/-- Claim C14. `mutate` is a no-op on an unmanaged workload: for every
configuration, valid or not, every metadata and every pod spec such that
`IsManaged` is false, `mutate` returns without a panic and leaves the pod spec
as it was. -/
theorem mutate_unmanaged_noop (c : Config) (m : ObjectMeta) (p : PodSpec)
    (hm : c.IsManaged m = false) :
    (mutate c m p).panic = none ∧ (mutate c m p).podSpec = p := by
  rw [mutate_unmanaged c m p hm]
  exact ⟨rfl, rfl⟩

/-- Claim C15. For every configuration that `Validate` accepts, every metadata
for which `IsManaged` is true and every pod spec, `mutate` returns, the
volumes are the merge of the given volumes with the synthesized volume, and
the containers are the given containers, in order, each with its mounts merged
with the synthesized mount, the volume and the mount being those of
`GetVolumeAndMount` on the attributes of `GetAttributes`; so the volume is in
the volume list and the mount in the mount list of every container. -/
theorem mutate_merges_volume_and_mount (c : Config) (m : ObjectMeta) (p : PodSpec)
    (hv : c.Validate = .ok ()) (hm : c.IsManaged m = true) :
    ∃ attributes, c.GetAttributes = .ok attributes ∧
      (mutate c m p).panic = none ∧
      (mutate c m p).podSpec.Volumes
        = deepMergeVolumes p.Volumes [(c.GetVolumeAndMount attributes).1] ∧
      (mutate c m p).podSpec.Containers
        = p.Containers.map (fun container =>
            { container with
              VolumeMounts :=
                deepMergeMounts container.VolumeMounts
                  [(c.GetVolumeAndMount attributes).2] }) ∧
      (mutate c m p).podSpec.Containers.map Container.VolumeMounts
        = p.Containers.map (fun container =>
            deepMergeMounts container.VolumeMounts [(c.GetVolumeAndMount attributes).2]) ∧
      (c.GetVolumeAndMount attributes).1 ∈ (mutate c m p).podSpec.Volumes ∧
      ∀ container ∈ (mutate c m p).podSpec.Containers,
        (c.GetVolumeAndMount attributes).2 ∈ container.VolumeMounts := by
  have ha := GetAttributes_ok c hv
  refine ⟨_, ha, ?_⟩
  rw [mutate_ok c m p _ hm ha]
  refine ⟨rfl, rfl, rfl, by simp [List.map_map, Function.comp_def], ?_, ?_⟩
  · exact deepMergeVolumes_mem _ _
  · intro container hc
    obtain ⟨container', _, rfl⟩ := List.mem_map.1 hc
    exact deepMergeMounts_mem _ _

/-- Claim C13, at a concrete input: the scenario's configuration and metadata
are a managed pair, and a second `mutate` of the stale pod spec changes
nothing. -/
theorem mutate_idempotent_witness :
    scenarioConfig.IsManaged scenarioMeta = true ∧
    (mutate scenarioConfig scenarioMeta
        (mutate scenarioConfig scenarioMeta stalePodSpec).podSpec).podSpec
      = (mutate scenarioConfig scenarioMeta stalePodSpec).podSpec ∧
    (mutate scenarioConfig scenarioMeta stalePodSpec).podSpec ≠ stalePodSpec :=
  ⟨by decide, (mutate_idempotent scenarioConfig scenarioMeta stalePodSpec (by decide)).1,
    by decide⟩

/-- Claim C14, at a concrete input: the zero configuration with `Namespace`
`prod`, which `Validate` rejects, and a workload of namespace `dev`. -/
theorem mutate_unmanaged_noop_witness :
    (∃ e, ({ Config.zero with Namespace := "prod" } : Config).Validate = .error e) ∧
    ({ Config.zero with Namespace := "prod" } : Config).IsManaged
      { scenarioMeta with Namespace := "dev" } = false ∧
    (mutate { Config.zero with Namespace := "prod" } { scenarioMeta with Namespace := "dev" }
        stalePodSpec).panic = none ∧
    (mutate { Config.zero with Namespace := "prod" } { scenarioMeta with Namespace := "dev" }
        stalePodSpec).podSpec = stalePodSpec :=
  ⟨⟨_, rfl⟩, by decide,
    mutate_unmanaged_noop { Config.zero with Namespace := "prod" }
      { scenarioMeta with Namespace := "dev" } stalePodSpec (by decide)⟩

/-- Claim C15, at a concrete input: the scenario's configuration and metadata
and the stale pod spec, with its two containers. -/
theorem mutate_merges_volume_and_mount_witness :
    scenarioConfig.Validate = .ok () ∧ scenarioConfig.IsManaged scenarioMeta = true ∧
    ∃ attributes, scenarioConfig.GetAttributes = .ok attributes ∧
      (mutate scenarioConfig scenarioMeta stalePodSpec).podSpec.Volumes
        = deepMergeVolumes stalePodSpec.Volumes
            [(scenarioConfig.GetVolumeAndMount attributes).1] ∧
      ∀ container ∈ (mutate scenarioConfig scenarioMeta stalePodSpec).podSpec.Containers,
        (scenarioConfig.GetVolumeAndMount attributes).2 ∈ container.VolumeMounts := by
  refine ⟨by decide, by decide, ?_⟩
  obtain ⟨attributes, ha, _, hvol, _, _, _, hmount⟩ :=
    mutate_merges_volume_and_mount scenarioConfig scenarioMeta stalePodSpec (by decide)
      (by decide)
  exact ⟨attributes, ha, hvol, hmount⟩

/-- Claim C16, refuted as stated: `Defaults` has no issuer name, so `Validate`
rejects it with `IssuerName is required`; on a workload that carries the
default annotation `mutate` ends in the panic of `GetAttributes`, whose
message is another one. -/
theorem mutate_panic_is_not_Validate_error :
    Defaults.Validate = .error "IssuerName is required" ∧
    Defaults.IsManaged
      { scenarioMeta with Annotations := some [("op.csi.cert-manager.io", "")] } = true ∧
    (mutate Defaults { scenarioMeta with Annotations := some [("op.csi.cert-manager.io", "")] }
        stalePodSpec).panic
      = some "Validation failed. This should never happen by this point." ∧
    (mutate Defaults { scenarioMeta with Annotations := some [("op.csi.cert-manager.io", "")] }
        stalePodSpec).panic
      ≠ some "IssuerName is required" := by
  decide

/-- Claim C16, amended. A validation error aborts the mutation before the pod
spec is touched: for every configuration that `Validate` rejects, every
metadata for which `IsManaged` is true and every pod spec, `mutate` ends in a
panic with the fixed message `Validation failed. This should never happen by
this point.`, whatever the error of `Validate` was, and the pod spec (volumes
and all containers' mounts) is left as it was. -/
theorem mutate_aborts_on_invalid_config (c : Config) (m : ObjectMeta) (p : PodSpec)
    (e : String) (hv : c.Validate = .error e) (hm : c.IsManaged m = true) :
    (mutate c m p).panic
      = some "Validation failed. This should never happen by this point." ∧
    (mutate c m p).podSpec = p := by
  rw [mutate_panic c m p e hm hv]
  exact ⟨rfl, rfl⟩

/-- Claim C16, amended, at a concrete input: `Defaults`, a workload with the
default annotation, and the stale pod spec. -/
theorem mutate_aborts_on_invalid_config_witness :
    (mutate Defaults { scenarioMeta with Annotations := some [("op.csi.cert-manager.io", "")] }
        stalePodSpec).panic
      = some "Validation failed. This should never happen by this point." ∧
    (mutate Defaults { scenarioMeta with Annotations := some [("op.csi.cert-manager.io", "")] }
        stalePodSpec).podSpec = stalePodSpec :=
  mutate_aborts_on_invalid_config Defaults
    { scenarioMeta with Annotations := some [("op.csi.cert-manager.io", "")] } stalePodSpec
    "IssuerName is required" (by decide) (by decide)

/-- Merging one entry into the empty sequence gives the sequence of that
entry. -/
theorem deepMergeVolumes_nil (new : Volume) : deepMergeVolumes [] [new] = [new] := rfl

/-- Merging one entry into the empty sequence gives the sequence of that
entry. -/
theorem deepMergeMounts_nil (new : VolumeMount) : deepMergeMounts [] [new] = [new] := rfl

/-- Claim C17. Mutating a fresh workload yields exactly the synthesized volume
and mount: for every configuration that `Validate` accepts, every metadata for
which `IsManaged` is true and every pod spec without volumes whose containers
have no mounts, `mutate` returns, the volumes are the one-element list of the
synthesized volume, the containers are as many as before, and the mounts of
each are the one-element list of the synthesized mount, the volume and the
mount being those of `GetVolumeAndMount` on the attributes of `GetAttributes`. -/
theorem mutate_fresh (c : Config) (m : ObjectMeta) (p : PodSpec)
    (hv : c.Validate = .ok ()) (hm : c.IsManaged m = true) (hvol : p.Volumes = [])
    (hmounts : ∀ container ∈ p.Containers, container.VolumeMounts = []) :
    ∃ attributes, c.GetAttributes = .ok attributes ∧
      (mutate c m p).panic = none ∧
      (mutate c m p).podSpec.Volumes = [(c.GetVolumeAndMount attributes).1] ∧
      (mutate c m p).podSpec.Containers.length = p.Containers.length ∧
      ∀ container ∈ (mutate c m p).podSpec.Containers,
        container.VolumeMounts = [(c.GetVolumeAndMount attributes).2] := by
  have ha := GetAttributes_ok c hv
  refine ⟨_, ha, ?_⟩
  rw [mutate_ok c m p _ hm ha]
  refine ⟨rfl, ?_, by simp, ?_⟩
  · show deepMergeVolumes p.Volumes _ = _
    rw [hvol, deepMergeVolumes_nil]
  · intro container hc
    obtain ⟨container', hc', rfl⟩ := List.mem_map.1 hc
    show deepMergeMounts container'.VolumeMounts _ = _
    rw [hmounts container' hc', deepMergeMounts_nil]

/-- Claim C17, at the scenario: the configuration `Namespace` `prod`,
`IssuerName` `ca-issuer`, `MountPath` `/var/run/tls`, a workload of namespace
`prod`, one container. The single volume is named `cert-manager-tls`, its
attributes have `csi.cert-manager.io/issuer-name` = `ca-issuer` and no
`fs-group` key; the single mount is named `cert-manager-tls`, mounted at
`/var/run/tls`, read-only. -/
theorem mutate_fresh_witness :
    (∃ attributes, scenarioConfig.GetAttributes = .ok attributes ∧
      (mutate scenarioConfig scenarioMeta scenarioPodSpec).panic = none ∧
      (mutate scenarioConfig scenarioMeta scenarioPodSpec).podSpec.Volumes
        = [(scenarioConfig.GetVolumeAndMount attributes).1] ∧
      (mutate scenarioConfig scenarioMeta scenarioPodSpec).podSpec.Containers.length
        = scenarioPodSpec.Containers.length ∧
      ∀ container ∈ (mutate scenarioConfig scenarioMeta scenarioPodSpec).podSpec.Containers,
        container.VolumeMounts = [(scenarioConfig.GetVolumeAndMount attributes).2]) ∧
    (mutate scenarioConfig scenarioMeta scenarioPodSpec).podSpec.Volumes
      = [ { Name := "cert-manager-tls"
            VolumeSource :=
              { EmptyDir := none
                CSI := some
                  { Driver := "csi.cert-manager.io"
                    ReadOnly := some true
                    FSType := none
                    VolumeAttributes :=
                      [ ("csi.cert-manager.io/issuer-name", "ca-issuer"),
                        ("csi.cert-manager.io/is-ca", "false"),
                        ("csi.cert-manager.io/reuse-private-key", "false"),
                        ("csi.cert-manager.io/pkcs12-enable", "false") ]
                    NodePublishSecretRef := none } } } ] ∧
    (mutate scenarioConfig scenarioMeta scenarioPodSpec).podSpec.Containers.map
        Container.VolumeMounts
      = [ [ { Name := "cert-manager-tls", ReadOnly := true, MountPath := "/var/run/tls",
              SubPath := "", MountPropagation := none, SubPathExpr := "" } ] ] :=
  ⟨mutate_fresh scenarioConfig scenarioMeta scenarioPodSpec (by decide) (by decide) rfl
      (by decide),
    by decide, by decide⟩

/-! ## The attribute projection, continued -/

/-- A configuration that `Validate` accepts has an issuer name. -/
theorem Validate_ok_issuerName (c : Config) (hv : c.Validate = .ok ()) : c.IssuerName ≠ "" := by
  intro h
  unfold Config.Validate at hv
  split at hv
  · cases hv
  · simp [h] at hv

/-- An entry of the table whose value is not empty, and whose slug is not
`fs-group`, is in the map under its key. -/
theorem GetAttributes_mem_of_source (c : Config) (slug src : String)
    (hs : (slug, src) ∈ attributeSources c) (hne : src ≠ "") (hslug : slug ≠ "fs-group") :
    (GetAttributes.key slug, src) ∈
      (GetAttributes.literal c).filter (fun kv => decide (¬ GetAttributes.pruned kv)) :=
  (mem_GetAttributes c _ _).2
    ⟨⟨slug, hs, rfl⟩, hne, fun h => hslug (GetAttributes.key_injective h.1)⟩

/-- The value in the map under the key of a slug is the slug's source value. -/
theorem GetAttributes_value (c : Config) (slug src v : String)
    (hs : (slug, src) ∈ attributeSources c)
    (hmem : (GetAttributes.key slug, v) ∈
      (GetAttributes.literal c).filter (fun kv => decide (¬ GetAttributes.pruned kv))) :
    v = src ∧ v ≠ "" := by
  obtain ⟨⟨slug', hs', hk⟩, hne, _⟩ := (mem_GetAttributes c _ _).1 hmem
  have hslug := GetAttributes.key_injective hk
  subst hslug
  have := List.inj_on_of_nodup_map (attributeSources_nodup c) hs' hs rfl
  simp only [Prod.mk.injEq, true_and] at this
  exact ⟨this, hne⟩

/-- Claim C18. `Validate` does not enforce the PKCS12 password requirement:
`Defaults` with an issuer name and `Pkcs12Enable` true has an empty
`Pkcs12Password` and passes `Validate`; the result of `Validate` is the same
whatever `Pkcs12Enable`, `Pkcs12Filename` and `Pkcs12Password` are set to; and
for every configuration that passes `Validate` with `Pkcs12Enable` true and an
empty `Pkcs12Password`, the map of `GetAttributes` has
`csi.cert-manager.io/pkcs12-enable` = `true` and no
`csi.cert-manager.io/pkcs12-password` key. -/
theorem Validate_ignores_pkcs12 :
    (({ Defaults with IssuerName := "ca-issuer", Pkcs12Enable := true } : Config).Pkcs12Password
        = "" ∧
      ({ Defaults with IssuerName := "ca-issuer", Pkcs12Enable := true } : Config).Validate
        = .ok ()) ∧
    (∀ (c : Config) (enable : Bool) (filename password : String),
      ({ c with Pkcs12Enable := enable, Pkcs12Filename := filename,
                Pkcs12Password := password } : Config).Validate = c.Validate) ∧
    (∀ c : Config, c.Validate = .ok () → c.Pkcs12Enable = true → c.Pkcs12Password = "" →
      ∃ m, c.GetAttributes = .ok m ∧
        ("csi.cert-manager.io/pkcs12-enable", "true") ∈ m ∧
        ∀ v, ("csi.cert-manager.io/pkcs12-password", v) ∉ m) := by
  refine ⟨by decide, fun c enable filename password => rfl, ?_⟩
  intro c hv he hp
  have k1 : ("csi.cert-manager.io/pkcs12-enable" : String)
      = GetAttributes.key "pkcs12-enable" := by decide
  have k2 : ("csi.cert-manager.io/pkcs12-password" : String)
      = GetAttributes.key "pkcs12-password" := by decide
  have s1 : ("pkcs12-enable", "true") ∈ attributeSources c := by
    simp [attributeSources, he]
  have s2 : ("pkcs12-password", "") ∈ attributeSources c := by
    simp [attributeSources, hp]
  refine ⟨_, GetAttributes_ok c hv, ?_, ?_⟩
  · rw [k1]
    exact GetAttributes_mem_of_source c _ _ s1 (by decide) (by decide)
  · intro v hmem
    rw [k2] at hmem
    obtain ⟨h1, h2⟩ := GetAttributes_value c _ _ v s2 hmem
    exact h2 h1

/-- Claim C19. For every configuration that `Validate` accepts, the map of
`GetAttributes` has the key `csi.cert-manager.io/issuer-name` with the value
`IssuerName`, and the keys `is-ca`, `reuse-private-key` and `pkcs12-enable`
with the value `true` or `false` according to the field, a false boolean being
in the map as `false`; so the map is not empty and has at least four
entries. -/
theorem GetAttributes_always_present (c : Config) (hv : c.Validate = .ok ()) :
    ∃ m, c.GetAttributes = .ok m ∧
      (∀ v, ("csi.cert-manager.io/issuer-name", v) ∈ m ↔ v = c.IssuerName) ∧
      (∀ v, ("csi.cert-manager.io/is-ca", v) ∈ m ↔ v = if c.IsCa then "true" else "false") ∧
      (∀ v, ("csi.cert-manager.io/reuse-private-key", v) ∈ m ↔
        v = if c.ReusePrivateKey then "true" else "false") ∧
      (∀ v, ("csi.cert-manager.io/pkcs12-enable", v) ∈ m ↔
        v = if c.Pkcs12Enable then "true" else "false") ∧
      m ≠ [] ∧ 4 ≤ m.length := by
  have k1 : ("csi.cert-manager.io/issuer-name" : String)
      = GetAttributes.key "issuer-name" := by decide
  have k2 : ("csi.cert-manager.io/is-ca" : String) = GetAttributes.key "is-ca" := by decide
  have k3 : ("csi.cert-manager.io/reuse-private-key" : String)
      = GetAttributes.key "reuse-private-key" := by decide
  have k4 : ("csi.cert-manager.io/pkcs12-enable" : String)
      = GetAttributes.key "pkcs12-enable" := by decide
  have s1 : ("issuer-name", c.IssuerName) ∈ attributeSources c := by simp [attributeSources]
  have s2 : ("is-ca", if c.IsCa then "true" else "false") ∈ attributeSources c := by
    simp [attributeSources]
  have s3 : ("reuse-private-key", if c.ReusePrivateKey then "true" else "false")
      ∈ attributeSources c := by simp [attributeSources]
  have s4 : ("pkcs12-enable", if c.Pkcs12Enable then "true" else "false")
      ∈ attributeSources c := by simp [attributeSources]
  have b : ∀ x : Bool, (if x then "true" else "false" : String) ≠ "" := by
    intro x; cases x <;> decide
  have m1 := GetAttributes_mem_of_source c _ _ s1 (Validate_ok_issuerName c hv) (by decide)
  have m2 := GetAttributes_mem_of_source c _ _ s2 (b _) (by decide)
  have m3 := GetAttributes_mem_of_source c _ _ s3 (b _) (by decide)
  have m4 := GetAttributes_mem_of_source c _ _ s4 (b _) (by decide)
  have hlen : 4 ≤ ((GetAttributes.literal c).filter
      (fun kv => decide (¬ GetAttributes.pruned kv))).length := by
    have hnodup : [(GetAttributes.key "issuer-name", c.IssuerName),
        (GetAttributes.key "is-ca", if c.IsCa then "true" else "false"),
        (GetAttributes.key "reuse-private-key", if c.ReusePrivateKey then "true" else "false"),
        (GetAttributes.key "pkcs12-enable", if c.Pkcs12Enable then "true" else "false")].Nodup := by
      apply List.Nodup.of_map Prod.fst
      simp only [List.map_cons, List.map_nil]
      decide
    have hsub := List.subperm_of_subset hnodup (by
      intro x hx
      simp only [List.mem_cons, List.mem_singleton, List.not_mem_nil, or_false] at hx
      rcases hx with rfl | rfl | rfl | rfl
      · exact m1
      · exact m2
      · exact m3
      · exact m4)
    simpa using hsub.length_le
  refine ⟨_, GetAttributes_ok c hv, ?_, ?_, ?_, ?_, ?_, hlen⟩
  · intro v
    rw [k1]
    exact ⟨fun h => (GetAttributes_value c _ _ v s1 h).1, fun h => h ▸ m1⟩
  · intro v
    rw [k2]
    exact ⟨fun h => (GetAttributes_value c _ _ v s2 h).1, fun h => h ▸ m2⟩
  · intro v
    rw [k3]
    exact ⟨fun h => (GetAttributes_value c _ _ v s3 h).1, fun h => h ▸ m3⟩
  · intro v
    rw [k4]
    exact ⟨fun h => (GetAttributes_value c _ _ v s4 h).1, fun h => h ▸ m4⟩
  · intro h
    rw [h] at hlen
    simp at hlen

/-- Claim C19, at the scenario's configuration, whose three booleans are
false: the map has exactly the issuer name and the three `false` entries. -/
theorem GetAttributes_always_present_witness :
    scenarioConfig.Validate = .ok () ∧
    ∃ m, scenarioConfig.GetAttributes = .ok m ∧
      ("csi.cert-manager.io/issuer-name", "ca-issuer") ∈ m ∧
      ("csi.cert-manager.io/is-ca", "false") ∈ m ∧
      ("csi.cert-manager.io/reuse-private-key", "false") ∈ m ∧
      ("csi.cert-manager.io/pkcs12-enable", "false") ∈ m ∧
      m.length = 4 := by
  refine ⟨by decide, ?_⟩
  obtain ⟨m, hm, h1, h2, h3, h4, _, _⟩ := GetAttributes_always_present scenarioConfig (by decide)
  refine ⟨m, hm, (h1 _).2 rfl, (h2 _).2 rfl, (h3 _).2 rfl, (h4 _).2 rfl, ?_⟩
  have hd : scenarioConfig.GetAttributes
      = .ok [ ("csi.cert-manager.io/issuer-name", "ca-issuer"),
              ("csi.cert-manager.io/is-ca", "false"),
              ("csi.cert-manager.io/reuse-private-key", "false"),
              ("csi.cert-manager.io/pkcs12-enable", "false") ] := by decide
  rw [hd] at hm
  cases hm
  rfl

/-! ## The frame of the mutation -/

/-- Claim C20. `mutate` changes nothing but the volume list and the mount lists
of the containers, and these only by the synthesized name: for every
configuration, metadata and pod spec on which `mutate` ends without a panic,
the containers are as many as before and in the same order, each with all its
fields other than `VolumeMounts` as they were; the volumes, and the mounts of
each container, whose name is not `cert-manager-tls` are the same, in the same
order; the volume list and each mount list keep their length or grow by one
entry; the other fields of the pod spec are as they were. -/
theorem mutate_frame (c : Config) (m : ObjectMeta) (p : PodSpec)
    (hs : (mutate c m p).panic = none) :
    (mutate c m p).podSpec.Containers.length = p.Containers.length ∧
    List.Forall₂
      (fun before after : Container =>
        { after with VolumeMounts := before.VolumeMounts } = before ∧
        after.VolumeMounts.filter (fun e => decide (e.Name ≠ "cert-manager-tls"))
          = before.VolumeMounts.filter (fun e => decide (e.Name ≠ "cert-manager-tls")) ∧
        before.VolumeMounts.length ≤ after.VolumeMounts.length ∧
        after.VolumeMounts.length ≤ before.VolumeMounts.length + 1)
      p.Containers (mutate c m p).podSpec.Containers ∧
    (mutate c m p).podSpec.Volumes.filter (fun e => decide (e.Name ≠ "cert-manager-tls"))
      = p.Volumes.filter (fun e => decide (e.Name ≠ "cert-manager-tls")) ∧
    p.Volumes.length ≤ (mutate c m p).podSpec.Volumes.length ∧
    (mutate c m p).podSpec.Volumes.length ≤ p.Volumes.length + 1 ∧
    (mutate c m p).podSpec.InitContainers = p.InitContainers ∧
    (mutate c m p).podSpec.ServiceAccountName = p.ServiceAccountName := by
  cases hm : c.IsManaged m with
  | false =>
    rw [mutate_unmanaged c m p hm]
    refine ⟨rfl, ?_, rfl, Nat.le_refl _, Nat.le_succ _, rfl, rfl⟩
    rw [List.forall₂_same]
    intro container _
    exact ⟨rfl, rfl, Nat.le_refl _, Nat.le_succ _⟩
  | true =>
    rcases Validate_cases c with hv | ⟨e, hv⟩
    · obtain ⟨attributes, ha⟩ : ∃ attributes, c.GetAttributes = .ok attributes :=
        ⟨_, GetAttributes_ok c hv⟩
      rw [mutate_ok c m p attributes hm ha]
      refine ⟨by simp, ?_, ?_, ?_, ?_, rfl, rfl⟩
      · show List.Forall₂ _ p.Containers (p.Containers.map _)
        rw [List.forall₂_map_right_iff, List.forall₂_same]
        intro container _
        exact ⟨rfl,
          deepMergeMounts_filter container.VolumeMounts (c.GetVolumeAndMount attributes).2,
          (deepMergeMounts_length container.VolumeMounts _).1,
          (deepMergeMounts_length container.VolumeMounts _).2⟩
      · exact deepMergeVolumes_filter p.Volumes (c.GetVolumeAndMount attributes).1
      · exact (deepMergeVolumes_length p.Volumes _).1
      · exact (deepMergeVolumes_length p.Volumes _).2
    · rw [mutate_panic c m p e hm hv] at hs
      cases hs

/-- Claim C20, at a concrete input: `mutate` ends without a panic on the
scenario's configuration and metadata and the stale pod spec; it overwrites
the stale volume and the stale mount of the first container, gives the second
container the mount, and leaves everything else. -/
theorem mutate_frame_witness :
    (mutate scenarioConfig scenarioMeta stalePodSpec).panic = none ∧
    (mutate scenarioConfig scenarioMeta stalePodSpec).podSpec.Containers.length = 2 ∧
    (mutate scenarioConfig scenarioMeta stalePodSpec).podSpec.Volumes.map Volume.Name
      = ["data", "cert-manager-tls"] ∧
    (mutate scenarioConfig scenarioMeta stalePodSpec).podSpec.Containers.map
        (fun container => container.VolumeMounts.map VolumeMount.Name)
      = [["data", "cert-manager-tls"], ["cert-manager-tls"]] ∧
    (mutate scenarioConfig scenarioMeta stalePodSpec).podSpec.InitContainers
      = stalePodSpec.InitContainers := by
  have h := mutate_frame scenarioConfig scenarioMeta stalePodSpec (by decide)
  exact ⟨by decide, h.1, by decide, by decide, h.2.2.2.2.2.1⟩

end CertManagerCsi
